import Mathlib

/-!
# Verification of the storm-analysis multiple-peak fitting engine

A shallow embedding of the fitting engine declared in
`storm_analysis/sa_library/multi_fit.h`.  The header fixes the constants,
the data model (`peakData`, `fitData`) and the operation signatures; the
operation bodies are not part of the sources, so each operation below is
modelled from the specification's description of it, with machine doubles
embedded as exact rationals and the C buffers embedded as functions from
pixel coordinates.
-/

namespace MultiFit

/-! ## Constants from multi_fit.h -/

/-- Number of peak fitting parameters (`NFITTING`, multi_fit.h line 16). -/
def NFITTING : Nat := 7

/-- Number of results parameters (`NPEAKPAR`, multi_fit.h line 17). -/
def NPEAKPAR : Nat := 9

/-- Index of the height parameter (multi_fit.h line 20). -/
def HEIGHT : Nat := 0

/-- Index of the x center parameter (multi_fit.h line 21). -/
def XCENTER : Nat := 1

/-- Index of the x width parameter (multi_fit.h line 22). -/
def XWIDTH : Nat := 2

/-- Index of the y center parameter (multi_fit.h line 23). -/
def YCENTER : Nat := 3

/-- Index of the y width parameter (multi_fit.h line 24). -/
def YWIDTH : Nat := 4

/-- Index of the background parameter (multi_fit.h line 25). -/
def BACKGROUND : Nat := 5

/-- Index of the z center parameter (multi_fit.h line 26). -/
def ZCENTER : Nat := 6

/-- Results index of the status flag (`STATUS`, multi_fit.h line 29). -/
def STATUS : Nat := 7

/-- Results index of the fit error (`IERROR`, multi_fit.h line 30). -/
def IERROR : Nat := 8

/-- Peak status flag: fit in progress (multi_fit.h line 33). -/
def RUNNING : Int := 0

/-- Peak status flag: fit converged (multi_fit.h line 34). -/
def CONVERGED : Int := 1

/-- Peak status flag: fit failed (multi_fit.h line 35). -/
def ERROR : Int := 2

/-- AOI move/resize hysteresis threshold (multi_fit.h line 37). -/
def HYSTERESIS : ℚ := 6/10

/-- Whether solver deltas are clamped; 0 in this configuration
(multi_fit.h line 42). -/
def USECLAMP : Int := 0

/-- Initial Levenberg-Marquardt lambda value (multi_fit.h line 48). -/
def LAMBDASTART : ℚ := 1

/-- Multiplier for decreasing lambda (multi_fit.h line 49). -/
def LAMBDADOWN : ℚ := 3/4

/-- Maximum lambda value; reaching it loses the peak (multi_fit.h line 50). -/
def LAMBDAMAX : ℚ := 10^20

/-- Minimum lambda value (multi_fit.h line 51). -/
def LAMBDAMIN : ℚ := 1/1000

/-- Multiplier for increasing lambda (multi_fit.h line 52). -/
def LAMBDAUP : ℚ := 4

/-- Peak storage growth chunk (multi_fit.h line 55). -/
def INCNPEAKS : Nat := 500

/-! ## Data model from multi_fit.h -/

/-- One peak to be fit (`peakData`, multi_fit.h lines 61-83).  Doubles are
embedded as rationals; the AOI-local rendered PSF buffer is a function of
AOI-local pixel coordinates; the opaque model payload is omitted since the
engine never interprets it. -/
structure PeakData where
  added : Int
  index : Int
  iterations : Int
  status : Int
  xi : Int
  yi : Int
  size_x : Int
  size_y : Int
  error : ℚ
  lambda : ℚ
  sign : Fin NFITTING → Int
  clamp : Fin NFITTING → ℚ
  params : Fin NFITTING → ℚ
  psf : Int × Int → ℚ

attribute [ext] PeakData

/-- Everything necessary to fit an array of peaks on an image
(`fitData`, multi_fit.h lines 90-142).  Image buffers are functions of
absolute pixel coordinates; the peak collection is a list; the
fitter-supplied function pointers live in `PeakModel` below. -/
structure FitData where
  n_dposv : Int
  n_iterations : Int
  n_lost : Int
  n_margin : Int
  n_neg_fi : Int
  n_neg_height : Int
  n_neg_width : Int
  n_non_converged : Int
  n_non_decr : Int
  jac_size : Int
  max_nfit : Int
  nfit : Int
  image_size_x : Int
  image_size_y : Int
  minimum_height : ℚ
  xoff : ℚ
  yoff : ℚ
  zoff : ℚ
  tolerance : ℚ
  bg_counts : Int × Int → Int
  bg_data : Int × Int → ℚ
  bg_estimate : Int × Int → ℚ
  f_data : Int × Int → ℚ
  scmos_term : Int × Int → ℚ
  x_data : Int × Int → ℚ
  clamp_start : Fin NFITTING → ℚ
  working_peak : PeakData
  fit : List PeakData

attribute [ext] FitData

/-! ## AOI geometry and rendered contributions -/

/-- Whether absolute pixel `p` lies inside the peak's area of interest. -/
def inAOI (pk : PeakData) (p : Int × Int) : Bool :=
  decide (pk.xi ≤ p.1) && decide (p.1 < pk.xi + pk.size_x) &&
  decide (pk.yi ≤ p.2) && decide (p.2 < pk.yi + pk.size_y)

/-- The peak's rendered contribution at absolute pixel `p`: its PSF buffer
over the AOI footprint and zero elsewhere. -/
def psfAt (pk : PeakData) (p : Int × Int) : ℚ :=
  if inAOI pk p then pk.psf (p.1 - pk.xi, p.2 - pk.yi) else 0

/-! ## Add / Subtract (Peak Lifecycle Manager)

Modelled from the spec: `mFitAddPeak` "renders the peak's current shape
into its AOI, adds it into the aggregate model image, increments per-pixel
overlap count over the AOI footprint"; `mFitSubtractPeak` is the inverse
(multi_fit.h lines 151 and 177 declare the functions; their bodies are not
in the sources). -/

/-- Modelled from the spec: `mFitAddPeak` (declared multi_fit.h line 151).
Adds the working peak's rendered contribution to the aggregate model image
`f_data`, increments the per-pixel overlap counts `bg_counts` over the AOI
footprint, and records the add in the peak's `added` counter. -/
def mFitAddPeak (fd : FitData) : FitData :=
  let pk := fd.working_peak
  { fd with
    working_peak := { pk with added := pk.added + 1 },
    f_data := fun p => fd.f_data p + psfAt pk p,
    bg_counts := fun p => if inAOI pk p then fd.bg_counts p + 1 else fd.bg_counts p }

/-- Modelled from the spec: `mFitSubtractPeak` (declared multi_fit.h
line 177), the inverse of Add: removes the working peak's last-rendered
contribution and decrements the overlap counts. -/
def mFitSubtractPeak (fd : FitData) : FitData :=
  let pk := fd.working_peak
  { fd with
    working_peak := { pk with added := pk.added - 1 },
    f_data := fun p => fd.f_data p - psfAt pk p,
    bg_counts := fun p => if inAOI pk p then fd.bg_counts p - 1 else fd.bg_counts p }

/-- The aggregate model image: foreground model plus background. -/
def modelImage (fd : FitData) (p : Int × Int) : ℚ :=
  fd.f_data p + fd.bg_data p

theorem sub_add_cancel_peak (fd : FitData) :
    mFitSubtractPeak (mFitAddPeak fd) = fd := by
  unfold mFitAddPeak mFitSubtractPeak
  ext p
  all_goals simp only [psfAt, inAOI]
  all_goals try omega
  all_goals split <;> ring

/-! ## Validation (mFitCheck) -/

/-- Whether the AOI stays clear of the forbidden margin at the image
border: the footprint must lie fully inside the image. -/
def marginOK (fd : FitData) (pk : PeakData) : Bool :=
  decide (0 ≤ pk.xi) && decide (pk.xi + pk.size_x ≤ fd.image_size_x) &&
  decide (0 ≤ pk.yi) && decide (pk.yi + pk.size_y ≤ fd.image_size_y)

/-- Whether the modeled pixel value (foreground model plus background) is
nonnegative everywhere in the peak's AOI footprint. -/
def fiNonNeg (fd : FitData) (pk : PeakData) : Bool :=
  (List.range pk.size_y.toNat).all fun j =>
    (List.range pk.size_x.toNat).all fun i =>
      decide (0 ≤ modelImage fd (pk.xi + (i : Int), pk.yi + (j : Int)))

/-- Modelled from the spec: `mFitCheck` (declared multi_fit.h line 153).
Validation rejects (returns `false` for) a working peak whose height is
below the configured minimum, whose width is non-positive, whose AOI falls
within the forbidden margin of the image border, or whose modeled pixel
value goes negative anywhere in its footprint. -/
def mFitCheck (fd : FitData) : Bool :=
  let pk := fd.working_peak
  decide (fd.minimum_height ≤ pk.params ⟨HEIGHT, by decide⟩) &&
  decide (0 < pk.params ⟨XWIDTH, by decide⟩) &&
  decide (0 < pk.params ⟨YWIDTH, by decide⟩) &&
  marginOK fd pk &&
  fiNonNeg fd pk

/-! ## The pluggable peak model (fitter-supplied function pointers)

The header stores the model-specific operations as function pointers in
`fitData` (multi_fit.h lines 133-141).  They are embedded as a record of
pure functions over exactly the data the spec says they consume: the shape
from the parameters, the normal-equations solve from the shared buffers,
the AOI, lambda and the parameters (`none` signals a non-positive-definite
system), the parameter update from the old parameters and the delta, and
the error from the buffers and the AOI. -/

/-- The shared image buffers a model computation may read. -/
structure FitBuffers where
  x_data : Int × Int → ℚ
  f_data : Int × Int → ℚ
  bg_data : Int × Int → ℚ
  scmos_term : Int × Int → ℚ

/-- View of the shared buffers of a fit state. -/
def FitData.buffers (fd : FitData) : FitBuffers :=
  ⟨fd.x_data, fd.f_data, fd.bg_data, fd.scmos_term⟩

/-- A peak's AOI geometry. -/
structure AOI where
  xi : Int
  yi : Int
  size_x : Int
  size_y : Int

/-- The AOI of a peak. -/
def aoiOf (pk : PeakData) : AOI :=
  ⟨pk.xi, pk.yi, pk.size_x, pk.size_y⟩

/-- The fitter-supplied operations (`fn_calc_peak_shape`, `fn_calc_JH`
combined with `mFitSolve`, `fn_update`, `mFitCalcErr`, `fn_check`),
modelled from the spec's Peak Model Adapter contract. -/
structure PeakModel where
  calcShape : (Fin NFITTING → ℚ) → Int × Int → ℚ
  solveJH : FitBuffers → AOI → ℚ → (Fin NFITTING → ℚ) → Option (Fin NFITTING → ℚ)
  applyDelta : (Fin NFITTING → ℚ) → (Fin NFITTING → ℚ) → Fin NFITTING → ℚ
  calcErr : FitBuffers → AOI → ℚ
  checkModel : (Fin NFITTING → ℚ) → Bool

/-! ## Levenberg-Marquardt damping -/

/-- Increase lambda by the up-multiplier, bounded above by `LAMBDAMAX`. -/
def lambdaUp (l : ℚ) : ℚ := min (l * LAMBDAUP) LAMBDAMAX

/-- Decrease lambda by the down-multiplier, bounded below by `LAMBDAMIN`. -/
def lambdaDown (l : ℚ) : ℚ := max (l * LAMBDADOWN) LAMBDAMIN

/-- Whether increasing lambda saturates it at `LAMBDAMAX`, losing the
peak. -/
def lambdaLost (l : ℚ) : Bool := decide (LAMBDAMAX ≤ l * LAMBDAUP)

/-- Clamp a solver delta by the per-parameter clamp magnitude.  The header
notes the exact rule is not used for LM fitting (`USECLAMP` is 0); this
body is the dead branch of the update. -/
def clampDelta (clamp : Fin NFITTING → ℚ) (delta : Fin NFITTING → ℚ) :
    Fin NFITTING → ℚ :=
  fun i => delta i / (1 + |delta i| / clamp i)

/-! ## One LM iteration for the working peak

Modelled from the spec, section 4.3: snapshot, subtract, solve, apply the
delta, re-add, compare errors, tune lambda, validate, update status. -/

/-- Solve-failure branch: increment the solve-failure counter, increase
lambda (losing the peak if lambda saturates), restore the snapshot and
re-add its contribution. -/
def solveFail (fd1 : FitData) (snap : PeakData) : FitData :=
  let lost := lambdaLost snap.lambda
  let restored : PeakData :=
    { snap with
      added := fd1.working_peak.added,
      lambda := lambdaUp snap.lambda,
      status := if lost then ERROR else snap.status }
  mFitAddPeak
    { fd1 with
      n_dposv := fd1.n_dposv + 1,
      n_lost := if lost then fd1.n_lost + 1 else fd1.n_lost,
      working_peak := restored }

/-- The committed working copy on acceptance: the candidate with decreased
lambda and the new error. -/
def lmCommitted (fd2 : FitData) (snap : PeakData) (newErr : ℚ) : PeakData :=
  { fd2.working_peak with lambda := lambdaDown snap.lambda, error := newErr }

/-- The validation verdict on the committed working copy: the generic
`mFitCheck` together with the model-specific `fn_check`. -/
def lmChecked (m : PeakModel) (fd2 : FitData) (snap : PeakData)
    (newErr : ℚ) : Bool :=
  mFitCheck
    { fd2 with
      working_peak := lmCommitted fd2 snap newErr,
      n_iterations := fd2.n_iterations + 1 } &&
  m.checkModel (lmCommitted fd2 snap newErr).params

/-- Accept branch: commit the working copy with decreased lambda and the
new error, then validate; a validation failure reverts the shared buffers
to the snapshot's contribution and marks the peak ERROR; otherwise the
peak converges when the error improvement falls below tolerance. -/
def acceptStep (m : PeakModel) (fd2 : FitData) (snap : PeakData)
    (newErr : ℚ) : FitData :=
  let committed : PeakData := lmCommitted fd2 snap newErr
  let fdc : FitData :=
    { fd2 with working_peak := committed, n_iterations := fd2.n_iterations + 1 }
  if lmChecked m fd2 snap newErr then
    if snap.error - newErr < fdc.tolerance then
      { fdc with working_peak := { committed with status := CONVERGED } }
    else
      { fdc with
        working_peak :=
          { committed with iterations := committed.iterations + 1 } }
  else
    let fd3 := mFitSubtractPeak fdc
    mFitAddPeak
      { fd3 with
        working_peak :=
          { snap with added := fd3.working_peak.added, status := ERROR } }

/-- Reject branch: remove the candidate's contribution, restore the
snapshot with increased lambda (losing the peak if lambda saturates),
re-add the original contribution and count the non-decreasing-error
restart. -/
def rejectStep (fd2 : FitData) (snap : PeakData) : FitData :=
  let fd3 := mFitSubtractPeak fd2
  let lost := lambdaLost snap.lambda
  let restored : PeakData :=
    { snap with
      added := fd3.working_peak.added,
      lambda := lambdaUp snap.lambda,
      status := if lost then ERROR else snap.status,
      iterations := snap.iterations + 1 }
  mFitAddPeak
    { fd3 with
      n_non_decr := fd3.n_non_decr + 1,
      n_lost := if lost then fd3.n_lost + 1 else fd3.n_lost,
      n_iterations := fd3.n_iterations + 1,
      working_peak := restored }

/-- The candidate state: subtract the working peak, apply the (optionally
clamped) delta to a working copy of the parameters, re-render the shape
and re-add the contribution. -/
def lmCandidate (m : PeakModel) (fd : FitData)
    (delta : Fin NFITTING → ℚ) : FitData :=
  let fd1 := mFitSubtractPeak fd
  let d := if USECLAMP = 0 then delta
           else clampDelta fd.working_peak.clamp delta
  let newParams := m.applyDelta fd.working_peak.params d
  let cand : PeakData :=
    { fd1.working_peak with params := newParams, psf := m.calcShape newParams }
  mFitAddPeak { fd1 with working_peak := cand }

/-- The candidate's recomputed error. -/
def lmCandErr (m : PeakModel) (fd : FitData)
    (delta : Fin NFITTING → ℚ) : ℚ :=
  m.calcErr (lmCandidate m fd delta).buffers (aoiOf fd.working_peak)

/-- Modelled from the spec: one Levenberg-Marquardt iteration for the
working peak (the per-peak body of `mFitIterateLM`, declared multi_fit.h
line 165).  Peaks whose status is not RUNNING are excluded from
iteration. -/
def lmPeakStep (m : PeakModel) (fd : FitData) : FitData :=
  if fd.working_peak.status = RUNNING then
    match m.solveJH (mFitSubtractPeak fd).buffers (aoiOf fd.working_peak)
        fd.working_peak.lambda fd.working_peak.params with
    | none => solveFail (mFitSubtractPeak fd) fd.working_peak
    | some delta =>
        if lmCandErr m fd delta < fd.working_peak.error then
          acceptStep m (lmCandidate m fd delta) fd.working_peak
            (lmCandErr m fd delta)
        else
          rejectStep (lmCandidate m fd delta) fd.working_peak
  else fd

/-! ## Recentering under hysteresis -/

/-- Modelled from the spec: recenter one peak (the per-peak body of
`mFitRecenterPeaks`, declared multi_fit.h line 171).  The candidate AOI
origin is computed from the updated continuous center parameter plus the
session's coordinate offset; the discrete origin only moves when the
candidate differs from the current origin by more than `HYSTERESIS`. -/
def recenterOne (xoff yoff : ℚ) (pk : PeakData) : PeakData :=
  let cx := pk.params ⟨XCENTER, by decide⟩ + xoff
  let cy := pk.params ⟨YCENTER, by decide⟩ + yoff
  { pk with
    xi := if HYSTERESIS < |cx - (pk.xi : ℚ)| then Rat.floor cx else pk.xi,
    yi := if HYSTERESIS < |cy - (pk.yi : ℚ)| then Rat.floor cy else pk.yi }

/-- Modelled from the spec: `mFitRecenterPeaks` (declared multi_fit.h
line 171) recenters every stored peak under hysteresis. -/
def mFitRecenterPeaks (fd : FitData) : FitData :=
  { fd with fit := fd.fit.map (recenterOne fd.xoff fd.yoff) }

/-! ## Reset -/

/-- Modify the element at a position of a list, leaving the rest alone. -/
def listModify (f : α → α) : Nat → List α → List α
  | _, [] => []
  | 0, x :: xs => f x :: xs
  | n + 1, x :: xs => x :: listModify f n xs

/-- Reset one peak's lambda and clamp values to the session defaults and
return it to RUNNING. -/
def resetPeakData (cs : Fin NFITTING → ℚ) (pk : PeakData) : PeakData :=
  { pk with status := RUNNING, lambda := LAMBDASTART, clamp := cs }

/-- Modelled from the spec: `mFitResetPeak` (declared multi_fit.h
line 174) restores the indexed peak's lambda and clamp values to the
session defaults and returns it to RUNNING. -/
def mFitResetPeak (fd : FitData) (i : Nat) : FitData :=
  { fd with fit := listModify (resetPeakData fd.clamp_start) i fd.fit }

/-! ## The full LM pass over the peak collection -/

/-- Process the stored peaks in order: each peak whose contribution is
currently added is copied into the working slot, stepped, and the working
copy collected back; peaks whose contribution is not added are skipped.
Returns the final fit state and the updated peak list. -/
def iteratePeaks (m : PeakModel) (fd : FitData) :
    List PeakData → FitData × List PeakData
  | [] => (fd, [])
  | pk :: rest =>
      if pk.added = 1 then
        let fd' := lmPeakStep m { fd with working_peak := pk }
        let next := iteratePeaks m fd' rest
        (next.1, fd'.working_peak :: next.2)
      else
        let next := iteratePeaks m fd rest
        (next.1, pk :: next.2)

/-- Modelled from the spec: `mFitIterateLM` (declared multi_fit.h
line 165) performs one LM iteration for every active stored peak. -/
def mFitIterateLM (m : PeakModel) (fd : FitData) : FitData :=
  let next := iteratePeaks m fd fd.fit
  { next.1 with fit := next.2 }

/-! ## Add / Subtract of a stored peak -/

/-- Modelled from the spec: add the indexed stored peak's contribution to
the shared buffers.  Double-adding is a contract violation, so a peak
already added is left alone. -/
def addPeakIdx (fd : FitData) (i : Nat) : FitData :=
  match fd.fit.get? i with
  | none => fd
  | some pk =>
      if pk.added = 0 then
        { fd with
          f_data := fun p => fd.f_data p + psfAt pk p,
          bg_counts := fun p =>
            if inAOI pk p then fd.bg_counts p + 1 else fd.bg_counts p,
          fit := listModify (fun q => { q with added := q.added + 1 }) i fd.fit }
      else fd

/-- Modelled from the spec: subtract the indexed stored peak's
contribution from the shared buffers; only a currently added peak can be
subtracted. -/
def subPeakIdx (fd : FitData) (i : Nat) : FitData :=
  match fd.fit.get? i with
  | none => fd
  | some pk =>
      if pk.added = 1 then
        { fd with
          f_data := fun p => fd.f_data p - psfAt pk p,
          bg_counts := fun p =>
            if inAOI pk p then fd.bg_counts p - 1 else fd.bg_counts p,
          fit := listModify (fun q => { q with added := q.added - 1 }) i fd.fit }
      else fd

/-! ## Fit Context operations -/

/-- A Fit Context operation: one LM pass over all peaks, a peak reset, or
adding / subtracting a stored peak's contribution. -/
inductive FitOp where
  | iterate : FitOp
  | reset : Nat → FitOp
  | addIdx : Nat → FitOp
  | subIdx : Nat → FitOp

/-- Apply one Fit Context operation. -/
def applyOp (m : PeakModel) : FitOp → FitData → FitData
  | FitOp.iterate, fd => mFitIterateLM m fd
  | FitOp.reset i, fd => mFitResetPeak fd i
  | FitOp.addIdx i, fd => addPeakIdx fd i
  | FitOp.subIdx i, fd => subPeakIdx fd i

/-- Apply a sequence of Fit Context operations in order. -/
def applyOps (m : PeakModel) : List FitOp → FitData → FitData
  | [], fd => fd
  | op :: ops, fd => applyOps m ops (applyOp m op fd)

/-! ## Result export -/

/-- Modelled from the spec: the full per-peak result record.  The first
`NFITTING` entries are the parameter vector in its fixed order; the two
derived fields STATUS and IERROR are appended. -/
def resultRecord (pk : PeakData) : Fin NPEAKPAR → ℚ := fun i =>
  if h : (i : Nat) < NFITTING then pk.params ⟨i, h⟩
  else if (i : Nat) = STATUS then (pk.status : ℚ)
  else pk.error

/-! ## Invariants -/

/-- The peak's lambda is within `[LAMBDAMIN, LAMBDAMAX]`. -/
def lambdaOK (pk : PeakData) : Prop :=
  LAMBDAMIN ≤ pk.lambda ∧ pk.lambda ≤ LAMBDAMAX

instance (pk : PeakData) : Decidable (lambdaOK pk) := by
  unfold lambdaOK; infer_instance

/-- Every peak of the session, the working copy included, has its lambda
within bounds. -/
def lambdaInv (fd : FitData) : Prop :=
  lambdaOK fd.working_peak ∧ ∀ pk ∈ fd.fit, lambdaOK pk

instance (fd : FitData) : Decidable (lambdaInv fd) := by
  unfold lambdaInv; infer_instance

/-- The sum of the currently-added stored peaks' rendered contributions at
a pixel. -/
def contribSum (pks : List PeakData) (p : Int × Int) : ℚ :=
  (pks.map (fun pk => if pk.added = 1 then psfAt pk p else 0)).sum

/-- The weighted cover count of the currently-added stored peaks at a
pixel. -/
def coverCount (pks : List PeakData) (p : Int × Int) : Int :=
  (pks.map (fun pk => if pk.added = 1 ∧ inAOI pk p then (1 : Int) else 0)).sum

/-- Every stored peak's add counter is 0 or 1. -/
def added01 (fd : FitData) : Prop :=
  ∀ pk ∈ fd.fit, pk.added = 0 ∨ pk.added = 1

/-- The Fit Context shared-buffer invariant: the aggregate model image
minus the background equals the sum of the currently-added peaks' rendered
contributions, and the overlap count at each pixel equals the number of
currently-added peaks covering it. -/
def bufferInv (fd : FitData) : Prop :=
  ∀ p, contribSum fd.fit p = modelImage fd p - fd.bg_data p ∧
    fd.bg_counts p = coverCount fd.fit p

/-- The full Fit Context invariant. -/
def contextInv (fd : FitData) : Prop := added01 fd ∧ bufferInv fd

/-! ## Per-step helper lemmas -/

theorem lmPeakStep_not_running (m : PeakModel) (fd : FitData)
    (h : ¬fd.working_peak.status = RUNNING) : lmPeakStep m fd = fd := by
  simp [lmPeakStep, h]

theorem psfAt_geom (pk q : PeakData) (hxi : q.xi = pk.xi) (hyi : q.yi = pk.yi)
    (hsx : q.size_x = pk.size_x) (hsy : q.size_y = pk.size_y)
    (hpsf : q.psf = pk.psf) (p : Int × Int) : psfAt q p = psfAt pk p := by
  simp only [psfAt, inAOI, hxi, hyi, hsx, hsy, hpsf]

theorem solveFail_shared (fd1 : FitData) (snap : PeakData) :
    (solveFail fd1 snap).working_peak.added = fd1.working_peak.added + 1 ∧
    aoiOf (solveFail fd1 snap).working_peak = aoiOf snap ∧
    (solveFail fd1 snap).fit = fd1.fit ∧
    (∀ p, (solveFail fd1 snap).bg_data p = fd1.bg_data p) ∧
    (∀ p, (solveFail fd1 snap).bg_counts p =
      if inAOI snap p then fd1.bg_counts p + 1 else fd1.bg_counts p) ∧
    (∀ p, (solveFail fd1 snap).f_data p = fd1.f_data p + psfAt snap p) := by
  unfold solveFail mFitAddPeak
  dsimp only
  exact ⟨rfl, rfl, rfl, fun p => rfl, fun p => rfl, fun p => rfl⟩

theorem rejectStep_shared (fd2 : FitData) (snap : PeakData)
    (hin : ∀ p, inAOI snap p = inAOI fd2.working_peak p) :
    (rejectStep fd2 snap).working_peak.added = fd2.working_peak.added ∧
    aoiOf (rejectStep fd2 snap).working_peak = aoiOf snap ∧
    (rejectStep fd2 snap).fit = fd2.fit ∧
    (∀ p, (rejectStep fd2 snap).bg_data p = fd2.bg_data p) ∧
    (∀ p, (rejectStep fd2 snap).bg_counts p = fd2.bg_counts p) ∧
    (∀ p, (rejectStep fd2 snap).f_data p =
      fd2.f_data p - psfAt fd2.working_peak p + psfAt snap p) := by
  unfold rejectStep mFitAddPeak mFitSubtractPeak
  dsimp only
  refine ⟨by first | omega | (dsimp only; omega), rfl, rfl, fun p => rfl,
    fun p => ?_, fun p => ?_⟩
  · have h := hin p
    simp only [inAOI] at h ⊢
    rw [h]
    clear * -
    split_ifs <;> omega
  · simp only [psfAt, inAOI]
    all_goals ring

theorem acceptStep_shared (m : PeakModel) (fd2 : FitData) (snap : PeakData)
    (e : ℚ) (hin : ∀ p, inAOI snap p = inAOI fd2.working_peak p)
    (haoi : aoiOf snap = aoiOf fd2.working_peak) :
    (acceptStep m fd2 snap e).working_peak.added = fd2.working_peak.added ∧
    aoiOf (acceptStep m fd2 snap e).working_peak = aoiOf fd2.working_peak ∧
    (acceptStep m fd2 snap e).fit = fd2.fit ∧
    (∀ p, (acceptStep m fd2 snap e).bg_data p = fd2.bg_data p) ∧
    (∀ p, (acceptStep m fd2 snap e).bg_counts p = fd2.bg_counts p) ∧
    (∀ p, (acceptStep m fd2 snap e).f_data p =
      fd2.f_data p - psfAt fd2.working_peak p +
        psfAt (acceptStep m fd2 snap e).working_peak p) := by
  unfold acceptStep lmCommitted mFitAddPeak mFitSubtractPeak
  dsimp only
  split
  case isTrue =>
    split
    case isTrue =>
      refine ⟨rfl, rfl, rfl, fun p => rfl, fun p => rfl, fun p => ?_⟩
      simp only [psfAt, inAOI]; all_goals ring
    case isFalse =>
      refine ⟨rfl, rfl, rfl, fun p => rfl, fun p => rfl, fun p => ?_⟩
      simp only [psfAt, inAOI]; all_goals ring
  case isFalse =>
    refine ⟨by first | omega | (dsimp only; omega), haoi, rfl, fun p => rfl,
      fun p => ?_, fun p => ?_⟩
    · have h := hin p
      simp only [inAOI] at h ⊢
      rw [h]
      clear * -
      split_ifs <;> omega
    · simp only [psfAt, inAOI]
      all_goals ring

theorem lmCandidate_shared (m : PeakModel) (fd : FitData)
    (delta : Fin NFITTING → ℚ) :
    (lmCandidate m fd delta).working_peak.added = fd.working_peak.added ∧
    aoiOf (lmCandidate m fd delta).working_peak = aoiOf fd.working_peak ∧
    (lmCandidate m fd delta).fit = fd.fit ∧
    (∀ p, (lmCandidate m fd delta).bg_data p = fd.bg_data p) ∧
    (∀ p, (lmCandidate m fd delta).bg_counts p = fd.bg_counts p) ∧
    (∀ p, (lmCandidate m fd delta).f_data p =
      fd.f_data p - psfAt fd.working_peak p +
        psfAt (lmCandidate m fd delta).working_peak p) := by
  unfold lmCandidate mFitAddPeak mFitSubtractPeak
  dsimp only
  refine ⟨by first | omega | (dsimp only; omega), rfl, rfl, fun p => rfl,
    fun p => ?_, fun p => ?_⟩
  · simp only [inAOI]; clear * -; split_ifs <;> omega
  · simp only [psfAt, inAOI]; all_goals ring

theorem lmPeakStep_shared (m : PeakModel) (fd : FitData) :
    (lmPeakStep m fd).working_peak.added = fd.working_peak.added ∧
    aoiOf (lmPeakStep m fd).working_peak = aoiOf fd.working_peak ∧
    (lmPeakStep m fd).fit = fd.fit ∧
    (∀ p, (lmPeakStep m fd).bg_data p = fd.bg_data p) ∧
    (∀ p, (lmPeakStep m fd).bg_counts p = fd.bg_counts p) ∧
    (∀ p, (lmPeakStep m fd).f_data p =
      fd.f_data p - psfAt fd.working_peak p +
        psfAt (lmPeakStep m fd).working_peak p) := by
  unfold lmPeakStep
  split
  case isFalse => simp [psfAt]
  case isTrue hrun =>
    split
    case h_1 =>
      obtain ⟨h1, h2, h3, h4, h5, h6⟩ :=
        solveFail_shared (mFitSubtractPeak fd) fd.working_peak
      refine ⟨by rw [h1]; unfold mFitSubtractPeak; dsimp only; omega,
        h2, h3, fun p => h4 p, fun p => ?_, fun p => ?_⟩
      · rw [h5 p]
        unfold mFitSubtractPeak
        dsimp only
        clear * -
        split_ifs <;> omega
      · rw [h6 p]
        have hps : psfAt (solveFail (mFitSubtractPeak fd)
            fd.working_peak).working_peak p = psfAt fd.working_peak p := by
          unfold solveFail mFitAddPeak
          dsimp only
          exact psfAt_geom _ _ rfl rfl rfl rfl rfl p
        rw [hps]
        unfold mFitSubtractPeak
        dsimp only
        all_goals ring
    case h_2 delta hdelta =>
      have hinc : ∀ p, inAOI fd.working_peak p =
          inAOI (lmCandidate m fd delta).working_peak p := by
        intro p
        unfold lmCandidate mFitAddPeak mFitSubtractPeak
        dsimp only
        simp only [inAOI]
      have haoic : aoiOf fd.working_peak =
          aoiOf (lmCandidate m fd delta).working_peak := by
        unfold lmCandidate mFitAddPeak mFitSubtractPeak
        dsimp only
        rfl
      obtain ⟨c1, c2, c3, c4, c5, c6⟩ := lmCandidate_shared m fd delta
      split
      case isTrue =>
        obtain ⟨a1, a2, a3, a4, a5, a6⟩ :=
          acceptStep_shared m (lmCandidate m fd delta) fd.working_peak
            (lmCandErr m fd delta) hinc haoic
        refine ⟨by rw [a1, c1], by rw [a2, c2], by rw [a3, c3],
          fun p => by rw [a4 p, c4 p], fun p => by rw [a5 p, c5 p],
          fun p => ?_⟩
        rw [a6 p, c6 p]
        ring
      case isFalse =>
        obtain ⟨r1, r2, r3, r4, r5, r6⟩ :=
          rejectStep_shared (lmCandidate m fd delta) fd.working_peak hinc
        refine ⟨by rw [r1, c1], by rw [r2], by rw [r3, c3],
          fun p => by rw [r4 p, c4 p], fun p => by rw [r5 p, c5 p],
          fun p => ?_⟩
        rw [r6 p, c6 p]
        have hps : psfAt (rejectStep (lmCandidate m fd delta)
            fd.working_peak).working_peak p = psfAt fd.working_peak p := by
          unfold rejectStep mFitAddPeak mFitSubtractPeak
          dsimp only
          exact psfAt_geom _ _ rfl rfl rfl rfl rfl p
        rw [hps]
        ring

/-! ## Branch characterizations of the working peak and counters -/

theorem lmChecked_eq (m : PeakModel) (fd2 : FitData) (snap : PeakData)
    (e : ℚ) :
    lmChecked m fd2 snap e =
      (mFitCheck
        { fd2 with
          working_peak := lmCommitted fd2 snap e,
          n_iterations := fd2.n_iterations + 1 } &&
      m.checkModel fd2.working_peak.params) := rfl

theorem solveFail_wp (fd1 : FitData) (snap : PeakData) :
    (solveFail fd1 snap).working_peak.lambda = lambdaUp snap.lambda ∧
    (solveFail fd1 snap).working_peak.status =
      (if lambdaLost snap.lambda then ERROR else snap.status) ∧
    (solveFail fd1 snap).working_peak.params = snap.params ∧
    (solveFail fd1 snap).working_peak.error = snap.error ∧
    (solveFail fd1 snap).working_peak.psf = snap.psf ∧
    (solveFail fd1 snap).working_peak.iterations = snap.iterations ∧
    (solveFail fd1 snap).n_dposv = fd1.n_dposv + 1 ∧
    (solveFail fd1 snap).n_lost =
      (if lambdaLost snap.lambda then fd1.n_lost + 1 else fd1.n_lost) ∧
    (solveFail fd1 snap).n_non_decr = fd1.n_non_decr ∧
    (solveFail fd1 snap).nfit = fd1.nfit := by
  unfold solveFail mFitAddPeak
  dsimp only
  exact ⟨rfl, rfl, rfl, rfl, rfl, rfl, rfl, rfl, rfl, rfl⟩

theorem rejectStep_wp (fd2 : FitData) (snap : PeakData) :
    (rejectStep fd2 snap).working_peak.lambda = lambdaUp snap.lambda ∧
    (rejectStep fd2 snap).working_peak.status =
      (if lambdaLost snap.lambda then ERROR else snap.status) ∧
    (rejectStep fd2 snap).working_peak.params = snap.params ∧
    (rejectStep fd2 snap).working_peak.error = snap.error ∧
    (rejectStep fd2 snap).working_peak.psf = snap.psf ∧
    (rejectStep fd2 snap).working_peak.iterations = snap.iterations + 1 ∧
    (rejectStep fd2 snap).n_dposv = fd2.n_dposv ∧
    (rejectStep fd2 snap).n_lost =
      (if lambdaLost snap.lambda then fd2.n_lost + 1 else fd2.n_lost) ∧
    (rejectStep fd2 snap).n_non_decr = fd2.n_non_decr + 1 ∧
    (rejectStep fd2 snap).nfit = fd2.nfit := by
  unfold rejectStep mFitAddPeak mFitSubtractPeak
  dsimp only
  exact ⟨rfl, rfl, rfl, rfl, rfl, rfl, rfl, rfl, rfl, rfl⟩

theorem acceptStep_wp_valid (m : PeakModel) (fd2 : FitData)
    (snap : PeakData) (e : ℚ) (h : lmChecked m fd2 snap e = true) :
    ((snap.error - e < fd2.tolerance) →
      (acceptStep m fd2 snap e).working_peak.status = CONVERGED) ∧
    (¬(snap.error - e < fd2.tolerance) →
      (acceptStep m fd2 snap e).working_peak.status =
        fd2.working_peak.status) ∧
    (acceptStep m fd2 snap e).working_peak.lambda = lambdaDown snap.lambda ∧
    (acceptStep m fd2 snap e).working_peak.params =
      fd2.working_peak.params ∧
    (acceptStep m fd2 snap e).working_peak.error = e ∧
    (acceptStep m fd2 snap e).n_dposv = fd2.n_dposv ∧
    (acceptStep m fd2 snap e).n_lost = fd2.n_lost ∧
    (acceptStep m fd2 snap e).n_non_decr = fd2.n_non_decr ∧
    (acceptStep m fd2 snap e).nfit = fd2.nfit := by
  unfold acceptStep lmCommitted
  dsimp only
  rw [if_pos h]
  refine ⟨fun h2 => ?_, fun h2 => ?_, ?_, ?_, ?_, ?_, ?_, ?_, ?_⟩
  · rw [if_pos h2]
  · rw [if_neg h2]
  all_goals split <;> rfl

theorem acceptStep_wp_invalid (m : PeakModel) (fd2 : FitData)
    (snap : PeakData) (e : ℚ) (h : lmChecked m fd2 snap e = false) :
    (acceptStep m fd2 snap e).working_peak.status = ERROR ∧
    (acceptStep m fd2 snap e).working_peak.lambda = snap.lambda ∧
    (acceptStep m fd2 snap e).working_peak.params = snap.params ∧
    (acceptStep m fd2 snap e).working_peak.error = snap.error ∧
    (acceptStep m fd2 snap e).working_peak.psf = snap.psf ∧
    aoiOf (acceptStep m fd2 snap e).working_peak = aoiOf snap ∧
    (acceptStep m fd2 snap e).n_dposv = fd2.n_dposv ∧
    (acceptStep m fd2 snap e).n_lost = fd2.n_lost ∧
    (acceptStep m fd2 snap e).n_non_decr = fd2.n_non_decr ∧
    (acceptStep m fd2 snap e).nfit = fd2.nfit := by
  unfold acceptStep lmCommitted mFitAddPeak mFitSubtractPeak
  dsimp only
  have hne : ¬ lmChecked m fd2 snap e = true := by rw [h]; decide
  rw [if_neg hne]
  exact ⟨rfl, rfl, rfl, rfl, rfl, rfl, rfl, rfl, rfl, rfl⟩

theorem lmCandidate_wp (m : PeakModel) (fd : FitData)
    (delta : Fin NFITTING → ℚ) :
    (lmCandidate m fd delta).working_peak.status =
      fd.working_peak.status ∧
    (lmCandidate m fd delta).working_peak.lambda =
      fd.working_peak.lambda ∧
    (lmCandidate m fd delta).working_peak.params =
      m.applyDelta fd.working_peak.params
        (if USECLAMP = 0 then delta
         else clampDelta fd.working_peak.clamp delta) ∧
    (lmCandidate m fd delta).working_peak.error = fd.working_peak.error ∧
    (lmCandidate m fd delta).working_peak.iterations =
      fd.working_peak.iterations ∧
    (lmCandidate m fd delta).n_dposv = fd.n_dposv ∧
    (lmCandidate m fd delta).n_lost = fd.n_lost ∧
    (lmCandidate m fd delta).n_non_decr = fd.n_non_decr ∧
    (lmCandidate m fd delta).nfit = fd.nfit ∧
    (lmCandidate m fd delta).tolerance = fd.tolerance := by
  unfold lmCandidate mFitAddPeak mFitSubtractPeak
  dsimp only
  exact ⟨rfl, rfl, rfl, rfl, rfl, rfl, rfl, rfl, rfl, rfl⟩

/-! ## Case equations for the LM step -/

theorem lmPeakStep_eq_solveFail (m : PeakModel) (fd : FitData)
    (hrun : fd.working_peak.status = RUNNING)
    (hs : m.solveJH (mFitSubtractPeak fd).buffers (aoiOf fd.working_peak)
      fd.working_peak.lambda fd.working_peak.params = none) :
    lmPeakStep m fd = solveFail (mFitSubtractPeak fd) fd.working_peak := by
  unfold lmPeakStep
  rw [if_pos hrun, hs]

theorem lmPeakStep_eq_accept (m : PeakModel) (fd : FitData)
    (delta : Fin NFITTING → ℚ)
    (hrun : fd.working_peak.status = RUNNING)
    (hs : m.solveJH (mFitSubtractPeak fd).buffers (aoiOf fd.working_peak)
      fd.working_peak.lambda fd.working_peak.params = some delta)
    (he : lmCandErr m fd delta < fd.working_peak.error) :
    lmPeakStep m fd =
      acceptStep m (lmCandidate m fd delta) fd.working_peak
        (lmCandErr m fd delta) := by
  unfold lmPeakStep
  rw [if_pos hrun, hs]
  dsimp only
  rw [if_pos he]

theorem lmPeakStep_eq_reject (m : PeakModel) (fd : FitData)
    (delta : Fin NFITTING → ℚ)
    (hrun : fd.working_peak.status = RUNNING)
    (hs : m.solveJH (mFitSubtractPeak fd).buffers (aoiOf fd.working_peak)
      fd.working_peak.lambda fd.working_peak.params = some delta)
    (he : ¬lmCandErr m fd delta < fd.working_peak.error) :
    lmPeakStep m fd =
      rejectStep (lmCandidate m fd delta) fd.working_peak := by
  unfold lmPeakStep
  rw [if_pos hrun, hs]
  dsimp only
  rw [if_neg he]

/-! ## Lambda bounds -/

theorem lambdaLost_iff (l : ℚ) :
    lambdaLost l = true ↔ LAMBDAMAX ≤ l * LAMBDAUP := by
  simp [lambdaLost]

theorem lambdaMin_le_max : LAMBDAMIN ≤ LAMBDAMAX := by
  unfold LAMBDAMIN LAMBDAMAX
  norm_num

theorem lambdaUp_mem (l : ℚ) (h1 : LAMBDAMIN ≤ l) (h2 : l ≤ LAMBDAMAX) :
    LAMBDAMIN ≤ lambdaUp l ∧ lambdaUp l ≤ LAMBDAMAX := by
  have hl0 : (0 : ℚ) ≤ l := le_trans (by norm_num [LAMBDAMIN]) h1
  constructor
  · exact le_min (le_trans h1 (by unfold LAMBDAUP; nlinarith)) lambdaMin_le_max
  · exact min_le_right _ _

theorem lambdaDown_mem (l : ℚ) (h1 : LAMBDAMIN ≤ l) (h2 : l ≤ LAMBDAMAX) :
    LAMBDAMIN ≤ lambdaDown l ∧ lambdaDown l ≤ LAMBDAMAX := by
  have hl0 : (0 : ℚ) ≤ l := le_trans (by norm_num [LAMBDAMIN]) h1
  constructor
  · exact le_max_right _ _
  · exact max_le (le_trans (by unfold LAMBDADOWN; nlinarith) h2) lambdaMin_le_max

theorem lmPeakStep_lambdaOK (m : PeakModel) (fd : FitData)
    (h : lambdaOK fd.working_peak) :
    lambdaOK (lmPeakStep m fd).working_peak := by
  by_cases hrun : fd.working_peak.status = RUNNING
  · rcases hs : m.solveJH (mFitSubtractPeak fd).buffers
        (aoiOf fd.working_peak) fd.working_peak.lambda
        fd.working_peak.params with _ | delta
    · rw [lmPeakStep_eq_solveFail m fd hrun hs]
      obtain ⟨h1, -⟩ := solveFail_wp (mFitSubtractPeak fd) fd.working_peak
      refine ⟨?_, ?_⟩ <;> rw [h1]
      · exact (lambdaUp_mem _ h.1 h.2).1
      · exact (lambdaUp_mem _ h.1 h.2).2
    · by_cases he : lmCandErr m fd delta < fd.working_peak.error
      · rw [lmPeakStep_eq_accept m fd delta hrun hs he]
        cases hchk : lmChecked m (lmCandidate m fd delta) fd.working_peak
            (lmCandErr m fd delta)
        · obtain ⟨-, hl, -⟩ := acceptStep_wp_invalid m _ _ _ hchk
          exact ⟨by rw [hl]; exact h.1, by rw [hl]; exact h.2⟩
        · obtain ⟨-, -, hl, -⟩ := acceptStep_wp_valid m _ _ _ hchk
          refine ⟨?_, ?_⟩ <;> rw [hl]
          · exact (lambdaDown_mem _ h.1 h.2).1
          · exact (lambdaDown_mem _ h.1 h.2).2
      · rw [lmPeakStep_eq_reject m fd delta hrun hs he]
        obtain ⟨hl, -⟩ := rejectStep_wp (lmCandidate m fd delta)
          fd.working_peak
        refine ⟨?_, ?_⟩ <;> rw [hl]
        · exact (lambdaUp_mem _ h.1 h.2).1
        · exact (lambdaUp_mem _ h.1 h.2).2
  · rw [lmPeakStep_not_running m fd hrun]
    exact h

theorem lmPeakStep_status_cases (m : PeakModel) (fd : FitData) :
    (lmPeakStep m fd).working_peak.status = fd.working_peak.status ∨
    (lmPeakStep m fd).working_peak.status = CONVERGED ∨
    (lmPeakStep m fd).working_peak.status = ERROR := by
  by_cases hrun : fd.working_peak.status = RUNNING
  · rcases hs : m.solveJH (mFitSubtractPeak fd).buffers
        (aoiOf fd.working_peak) fd.working_peak.lambda
        fd.working_peak.params with _ | delta
    · rw [lmPeakStep_eq_solveFail m fd hrun hs]
      obtain ⟨-, h2, -⟩ := solveFail_wp (mFitSubtractPeak fd) fd.working_peak
      rw [h2]
      cases lambdaLost fd.working_peak.lambda
      · left; simp
      · right; right; simp
    · by_cases he : lmCandErr m fd delta < fd.working_peak.error
      · rw [lmPeakStep_eq_accept m fd delta hrun hs he]
        cases hchk : lmChecked m (lmCandidate m fd delta) fd.working_peak
            (lmCandErr m fd delta)
        · obtain ⟨hst, -⟩ := acceptStep_wp_invalid m _ _ _ hchk
          right; right; exact hst
        · obtain ⟨hcv, hnc, -⟩ := acceptStep_wp_valid m _ _ _ hchk
          by_cases ht : fd.working_peak.error - lmCandErr m fd delta <
              (lmCandidate m fd delta).tolerance
          · right; left; exact hcv ht
          · left
            rw [hnc ht]
            exact (lmCandidate_wp m fd delta).1
      · rw [lmPeakStep_eq_reject m fd delta hrun hs he]
        obtain ⟨-, h2, -⟩ := rejectStep_wp (lmCandidate m fd delta)
          fd.working_peak
        rw [h2]
        cases lambdaLost fd.working_peak.lambda
        · left; simp
        · right; right; simp
  · rw [lmPeakStep_not_running m fd hrun]
    left; rfl

/-! ## Lambda invariant across whole-session operations -/

theorem mem_listModify {α : Type} (f : α → α) :
    ∀ (i : Nat) (l : List α) (a : α), a ∈ listModify f i l →
      a ∈ l ∨ ∃ b, l.get? i = some b ∧ a = f b := by
  intro i l
  induction l generalizing i with
  | nil => intro a ha; cases i <;> cases ha
  | cons x xs ih =>
    intro a ha
    cases i with
    | zero =>
      rcases List.mem_cons.mp ha with rfl | h
      · exact Or.inr ⟨x, rfl, rfl⟩
      · exact Or.inl (List.mem_cons_of_mem x h)
    | succ n =>
      rcases List.mem_cons.mp ha with rfl | h
      · exact Or.inl (List.mem_cons_self a xs)
      · rcases ih n a h with h' | ⟨b, hb, rfl⟩
        · exact Or.inl (List.mem_cons_of_mem x h')
        · exact Or.inr ⟨b, hb, rfl⟩

theorem iteratePeaks_lambdaOK (m : PeakModel) :
    ∀ (pks : List PeakData) (fd : FitData),
      lambdaOK fd.working_peak → (∀ pk ∈ pks, lambdaOK pk) →
      lambdaOK (iteratePeaks m fd pks).1.working_peak ∧
      ∀ pk ∈ (iteratePeaks m fd pks).2, lambdaOK pk := by
  intro pks
  induction pks with
  | nil =>
    intro fd h1 h2
    exact ⟨h1, by intro pk hpk; cases hpk⟩
  | cons pk rest ih =>
    intro fd h1 h2
    unfold iteratePeaks
    by_cases ha : pk.added = 1
    · rw [if_pos ha]
      dsimp only
      have hwp : lambdaOK (lmPeakStep m
          { fd with working_peak := pk }).working_peak :=
        lmPeakStep_lambdaOK m _ (h2 pk (List.mem_cons_self pk rest))
      obtain ⟨ih1, ih2⟩ := ih (lmPeakStep m { fd with working_peak := pk })
        hwp (fun q hq => h2 q (List.mem_cons_of_mem pk hq))
      refine ⟨ih1, ?_⟩
      intro q hq
      rcases List.mem_cons.mp hq with rfl | hq'
      · exact hwp
      · exact ih2 q hq'
    · rw [if_neg ha]
      dsimp only
      obtain ⟨ih1, ih2⟩ := ih fd h1
        (fun q hq => h2 q (List.mem_cons_of_mem pk hq))
      refine ⟨ih1, ?_⟩
      intro q hq
      rcases List.mem_cons.mp hq with rfl | hq'
      · exact h2 q (List.mem_cons_self q rest)
      · exact ih2 q hq'

theorem lambdaOK_reset (cs : Fin NFITTING → ℚ) (pk : PeakData) :
    lambdaOK (resetPeakData cs pk) := by
  unfold resetPeakData lambdaOK
  dsimp only
  norm_num [LAMBDASTART, LAMBDAMIN, LAMBDAMAX]

theorem applyOp_lambdaInv (m : PeakModel) (op : FitOp) (fd : FitData)
    (h : lambdaInv fd) : lambdaInv (applyOp m op fd) := by
  cases op with
  | iterate =>
    show lambdaInv (mFitIterateLM m fd)
    unfold mFitIterateLM
    dsimp only
    obtain ⟨h1, h2⟩ := iteratePeaks_lambdaOK m fd.fit fd h.1 h.2
    exact ⟨h1, h2⟩
  | reset i =>
    show lambdaInv (mFitResetPeak fd i)
    unfold mFitResetPeak
    refine ⟨h.1, ?_⟩
    intro pk hpk
    rcases mem_listModify _ i fd.fit pk hpk with h' | ⟨b, _, rfl⟩
    · exact h.2 pk h'
    · exact lambdaOK_reset _ b
  | addIdx i =>
    show lambdaInv (addPeakIdx fd i)
    unfold addPeakIdx
    split
    · exact h
    · split
      · refine ⟨h.1, ?_⟩
        intro pk hpk
        rcases mem_listModify _ i fd.fit pk hpk with h' | ⟨b, hb, rfl⟩
        · exact h.2 pk h'
        · exact h.2 b (List.get?_mem hb)
      · exact h
  | subIdx i =>
    show lambdaInv (subPeakIdx fd i)
    unfold subPeakIdx
    split
    · exact h
    · split
      · refine ⟨h.1, ?_⟩
        intro pk hpk
        rcases mem_listModify _ i fd.fit pk hpk with h' | ⟨b, hb, rfl⟩
        · exact h.2 pk h'
        · exact h.2 b (List.get?_mem hb)
      · exact h

theorem applyOps_lambdaInv (m : PeakModel) (ops : List FitOp) :
    ∀ (fd : FitData), lambdaInv fd → lambdaInv (applyOps m ops fd) := by
  induction ops with
  | nil => intro fd h; exact h
  | cons op ops ih =>
    intro fd h
    exact ih (applyOp m op fd) (applyOp_lambdaInv m op fd h)

/-! ## Shared-buffer invariant across whole-session operations -/

theorem contribSum_nil (p : Int × Int) : contribSum [] p = 0 := rfl

theorem contribSum_cons (pk : PeakData) (pks : List PeakData)
    (p : Int × Int) :
    contribSum (pk :: pks) p =
      (if pk.added = 1 then psfAt pk p else 0) + contribSum pks p := by
  simp [contribSum]

theorem coverCount_nil (p : Int × Int) : coverCount [] p = 0 := rfl

theorem coverCount_cons (pk : PeakData) (pks : List PeakData)
    (p : Int × Int) :
    coverCount (pk :: pks) p =
      (if pk.added = 1 ∧ inAOI pk p then (1 : Int) else 0) +
        coverCount pks p := by
  simp [coverCount]

theorem coverCount_eq_length (p : Int × Int) :
    ∀ pks : List PeakData,
      coverCount pks p =
        ((pks.filter fun pk => decide (pk.added = 1) && inAOI pk p).length
          : Int) := by
  intro pks
  induction pks with
  | nil => rfl
  | cons pk rest ih =>
    rw [coverCount_cons, ih, List.filter_cons]
    by_cases h : pk.added = 1 ∧ inAOI pk p = true
    · rw [if_pos h, if_pos (by simp [h.1, h.2])]
      simp only [List.length_cons]
      push_cast
      ring
    · rw [if_neg h, if_neg (by simpa using fun h1 h2 => h ⟨h1, h2⟩)]
      ring

theorem mapSum_listModify {α β : Type} [AddCommGroup β] (g : α → β)
    (f : α → α) :
    ∀ (i : Nat) (l : List α) (b : α), l.get? i = some b →
      ((listModify f i l).map g).sum = (l.map g).sum - g b + g (f b) := by
  intro i l
  induction l generalizing i with
  | nil => intro b hb; cases hb
  | cons x xs ih =>
    intro b hb
    cases i with
    | zero =>
      obtain rfl : x = b := by simpa using hb
      simp only [listModify, List.map_cons, List.sum_cons]
      abel
    | succ n =>
      have hb' : xs.get? n = some b := by simpa using hb
      simp only [listModify, List.map_cons, List.sum_cons, ih n b hb']
      abel

theorem inAOI_eq_of_aoiOf {q pk : PeakData} (h : aoiOf q = aoiOf pk)
    (p : Int × Int) : inAOI q p = inAOI pk p := by
  have h1 : q.xi = pk.xi := congrArg AOI.xi h
  have h2 : q.yi = pk.yi := congrArg AOI.yi h
  have h3 : q.size_x = pk.size_x := congrArg AOI.size_x h
  have h4 : q.size_y = pk.size_y := congrArg AOI.size_y h
  simp [inAOI, h1, h2, h3, h4]

theorem iteratePeaks_inv (m : PeakModel) :
    ∀ (pks : List PeakData) (fd : FitData) (F : Int × Int → ℚ)
      (N : Int × Int → Int),
      (∀ pk ∈ pks, pk.added = 0 ∨ pk.added = 1) →
      (∀ p, fd.f_data p = F p + contribSum pks p) →
      (∀ p, fd.bg_counts p = N p + coverCount pks p) →
      (∀ pk ∈ (iteratePeaks m fd pks).2, pk.added = 0 ∨ pk.added = 1) ∧
      (∀ p, (iteratePeaks m fd pks).1.f_data p =
        F p + contribSum (iteratePeaks m fd pks).2 p) ∧
      (∀ p, (iteratePeaks m fd pks).1.bg_counts p =
        N p + coverCount (iteratePeaks m fd pks).2 p) ∧
      (∀ p, (iteratePeaks m fd pks).1.bg_data p = fd.bg_data p) := by
  intro pks
  induction pks with
  | nil =>
    intro fd F N h01 hf hn
    refine ⟨?_, ?_, ?_, ?_⟩
    · intro pk hpk; cases hpk
    · intro p; exact hf p
    · intro p; exact hn p
    · intro p; rfl
  | cons pk rest ih =>
    intro fd F N h01 hf hn
    unfold iteratePeaks
    by_cases ha : pk.added = 1
    · rw [if_pos ha]
      dsimp only
      obtain ⟨s1, s2, s3, s4, s5, s6⟩ :=
        lmPeakStep_shared m { fd with working_peak := pk }
      dsimp only at s1 s2 s4 s5 s6
      have hwadd : (lmPeakStep m
          { fd with working_peak := pk }).working_peak.added = 1 :=
        s1.trans ha
      have hwaoi : ∀ q, inAOI (lmPeakStep m
          { fd with working_peak := pk }).working_peak q = inAOI pk q :=
        fun q => inAOI_eq_of_aoiOf s2 q
      have hf' : ∀ p,
          (lmPeakStep m { fd with working_peak := pk }).f_data p =
          (fun q => F q + psfAt (lmPeakStep m
            { fd with working_peak := pk }).working_peak q) p +
            contribSum rest p := by
        intro p
        beta_reduce
        rw [s6 p, hf p, contribSum_cons, if_pos ha]
        ring
      have hn' : ∀ p,
          (lmPeakStep m { fd with working_peak := pk }).bg_counts p =
          (fun q => N q + (if (lmPeakStep m
            { fd with working_peak := pk }).working_peak.added = 1 ∧
            inAOI (lmPeakStep m
              { fd with working_peak := pk }).working_peak q
            then (1 : Int) else 0)) p + coverCount rest p := by
        intro p
        beta_reduce
        rw [s5 p, hn p, coverCount_cons, hwadd, hwaoi p, ha]
        ring
      obtain ⟨i1, i2, i3, i4⟩ := ih
        (lmPeakStep m { fd with working_peak := pk }) _ _
        (fun q hq => h01 q (List.mem_cons_of_mem pk hq)) hf' hn'
      refine ⟨?_, ?_, ?_, ?_⟩
      · intro q hq
        rcases List.mem_cons.mp hq with rfl | hq'
        · exact Or.inr hwadd
        · exact i1 q hq'
      · intro p
        rw [i2 p, contribSum_cons, if_pos hwadd]
        beta_reduce
        ring
      · intro p
        rw [i3 p, coverCount_cons]
        beta_reduce
        ring
      · intro p
        rw [i4 p]
        exact s4 p
    · rw [if_neg ha]
      dsimp only
      have h0 : pk.added = 0 := by
        rcases h01 pk (List.mem_cons_self pk rest) with h | h
        · exact h
        · exact absurd h ha
      have hf' : ∀ p, fd.f_data p = F p + contribSum rest p := by
        intro p
        rw [hf p, contribSum_cons, if_neg ha]
        ring
      have hn' : ∀ p, fd.bg_counts p = N p + coverCount rest p := by
        intro p
        rw [hn p, coverCount_cons, if_neg (fun hc => ha hc.1)]
        ring
      obtain ⟨i1, i2, i3, i4⟩ := ih fd F N
        (fun q hq => h01 q (List.mem_cons_of_mem pk hq)) hf' hn'
      refine ⟨?_, ?_, ?_, ?_⟩
      · intro q hq
        rcases List.mem_cons.mp hq with rfl | hq'
        · exact Or.inl h0
        · exact i1 q hq'
      · intro p
        rw [i2 p, contribSum_cons, if_neg ha]
        ring
      · intro p
        rw [i3 p, coverCount_cons, if_neg (fun hc => ha hc.1)]
        ring
      · exact i4

theorem listModify_none {α : Type} (f : α → α) :
    ∀ (i : Nat) (l : List α), l.get? i = none → listModify f i l = l := by
  intro i l
  induction l generalizing i with
  | nil => intro _; cases i <;> rfl
  | cons x xs ih =>
    intro hg
    cases i with
    | zero => cases hg
    | succ n =>
      have : xs.get? n = none := by simpa using hg
      simp [listModify, ih n this]

theorem contribSum_modify (f : PeakData → PeakData) (i : Nat)
    (l : List PeakData) (b : PeakData) (hb : l.get? i = some b)
    (p : Int × Int) :
    contribSum (listModify f i l) p = contribSum l p
      - (if b.added = 1 then psfAt b p else 0)
      + (if (f b).added = 1 then psfAt (f b) p else 0) := by
  unfold contribSum
  exact mapSum_listModify _ f i l b hb

theorem coverCount_modify (f : PeakData → PeakData) (i : Nat)
    (l : List PeakData) (b : PeakData) (hb : l.get? i = some b)
    (p : Int × Int) :
    coverCount (listModify f i l) p = coverCount l p
      - (if b.added = 1 ∧ inAOI b p then (1 : Int) else 0)
      + (if (f b).added = 1 ∧ inAOI (f b) p then (1 : Int) else 0) := by
  unfold coverCount
  exact mapSum_listModify _ f i l b hb

theorem bufferInv_iff (fd : FitData) :
    bufferInv fd ↔ ∀ p, fd.f_data p = contribSum fd.fit p ∧
      fd.bg_counts p = coverCount fd.fit p := by
  unfold bufferInv modelImage
  constructor
  · intro h p
    obtain ⟨h1, h2⟩ := h p
    exact ⟨by linarith, h2⟩
  · intro h p
    obtain ⟨h1, h2⟩ := h p
    exact ⟨by linarith, h2⟩

theorem psfAt_reset (cs : Fin NFITTING → ℚ) (b : PeakData) (p : Int × Int) :
    psfAt (resetPeakData cs b) p = psfAt b p :=
  psfAt_geom _ _ rfl rfl rfl rfl rfl p

theorem inAOI_reset (cs : Fin NFITTING → ℚ) (b : PeakData) (p : Int × Int) :
    inAOI (resetPeakData cs b) p = inAOI b p :=
  inAOI_eq_of_aoiOf rfl p

theorem applyOp_contextInv (m : PeakModel) (op : FitOp) (fd : FitData)
    (h : contextInv fd) : contextInv (applyOp m op fd) := by
  obtain ⟨h01, hbuf⟩ := h
  have hb := (bufferInv_iff fd).mp hbuf
  cases op with
  | iterate =>
    show contextInv (mFitIterateLM m fd)
    unfold mFitIterateLM
    dsimp only
    obtain ⟨i1, i2, i3, i4⟩ := iteratePeaks_inv m fd.fit fd
      (fun _ => 0) (fun _ => 0) h01
      (fun p => by rw [(hb p).1]; ring)
      (fun p => by rw [(hb p).2]; ring)
    refine ⟨fun pk hpk => i1 pk hpk, ?_⟩
    rw [bufferInv_iff]
    intro p
    exact ⟨by rw [i2 p]; ring, by rw [i3 p]; ring⟩
  | reset i =>
    show contextInv (mFitResetPeak fd i)
    unfold mFitResetPeak
    rcases hg : fd.fit.get? i with _ | b
    · rw [listModify_none _ i fd.fit hg]
      exact ⟨h01, hbuf⟩
    · constructor
      · intro pk hpk
        rcases mem_listModify _ i fd.fit pk hpk with h' | ⟨c, hc, rfl⟩
        · exact h01 pk h'
        · exact h01 c (List.get?_mem hc)
      · rw [bufferInv_iff]
        intro p
        dsimp only
        constructor
        · rw [contribSum_modify _ i fd.fit b hg p, (hb p).1]
          have hh : (if (resetPeakData fd.clamp_start b).added = 1 then
              psfAt (resetPeakData fd.clamp_start b) p else 0) =
              (if b.added = 1 then psfAt b p else 0) := by
            rw [psfAt_reset]
            rfl
          rw [hh]
          ring
        · rw [coverCount_modify _ i fd.fit b hg p, (hb p).2]
          have hh : (if (resetPeakData fd.clamp_start b).added = 1 ∧
              inAOI (resetPeakData fd.clamp_start b) p then (1 : Int)
              else 0) =
              (if b.added = 1 ∧ inAOI b p then (1 : Int) else 0) := by
            rw [inAOI_reset]
            rfl
          rw [hh]
          ring
  | addIdx i =>
    show contextInv (addPeakIdx fd i)
    unfold addPeakIdx
    split
    case h_1 => exact ⟨h01, hbuf⟩
    case h_2 pk hg =>
      split
      case isFalse => exact ⟨h01, hbuf⟩
      case isTrue h0 =>
        constructor
        · intro q hq
          rcases mem_listModify _ i fd.fit q hq with h' | ⟨c, hc, rfl⟩
          · exact h01 q h'
          · obtain rfl : c = pk := by
              rw [hg] at hc
              injection hc with h'
              exact h'.symm
            right
            dsimp only
            omega
        · rw [bufferInv_iff]
          intro p
          dsimp only
          constructor
          · rw [contribSum_modify _ i fd.fit pk hg p, (hb p).1,
              if_neg (show ¬pk.added = 1 by omega)]
            have hh : (if ({ pk with added := pk.added + 1 } :
                PeakData).added = 1 then
                psfAt ({ pk with added := pk.added + 1 } : PeakData) p
                else 0) = psfAt pk p := by
              rw [if_pos (show ({ pk with added := pk.added + 1 } :
                PeakData).added = 1 by dsimp only; omega)]
              exact psfAt_geom _ _ rfl rfl rfl rfl rfl p
            rw [hh]
            ring
          · rw [coverCount_modify _ i fd.fit pk hg p, (hb p).2,
              if_neg (show ¬(pk.added = 1 ∧ inAOI pk p = true) from
                fun hc => absurd hc.1 (by omega))]
            have hin : inAOI ({ pk with added := pk.added + 1 } :
                PeakData) p = inAOI pk p := inAOI_eq_of_aoiOf rfl p
            by_cases hio : inAOI pk p = true
            · rw [if_pos hio, if_pos (show
                ({ pk with added := pk.added + 1 } : PeakData).added = 1 ∧
                inAOI ({ pk with added := pk.added + 1 } : PeakData) p =
                  true from
                ⟨by dsimp only; omega, hin.trans hio⟩)]
              ring
            · rw [if_neg hio, if_neg (show
                ¬(({ pk with added := pk.added + 1 } : PeakData).added = 1 ∧
                inAOI ({ pk with added := pk.added + 1 } : PeakData) p =
                  true) from fun hc => hio (hin ▸ hc.2))]
              ring
  | subIdx i =>
    show contextInv (subPeakIdx fd i)
    unfold subPeakIdx
    split
    case h_1 => exact ⟨h01, hbuf⟩
    case h_2 pk hg =>
      split
      case isFalse => exact ⟨h01, hbuf⟩
      case isTrue h1 =>
        constructor
        · intro q hq
          rcases mem_listModify _ i fd.fit q hq with h' | ⟨c, hc, rfl⟩
          · exact h01 q h'
          · obtain rfl : c = pk := by
              rw [hg] at hc
              injection hc with h'
              exact h'.symm
            left
            dsimp only
            omega
        · rw [bufferInv_iff]
          intro p
          dsimp only
          constructor
          · rw [contribSum_modify _ i fd.fit pk hg p, (hb p).1,
              if_pos h1,
              if_neg (show ¬({ pk with added := pk.added - 1 } :
                PeakData).added = 1 by dsimp only; omega)]
            ring
          · rw [coverCount_modify _ i fd.fit pk hg p, (hb p).2,
              if_neg (show ¬(({ pk with added := pk.added - 1 } :
                  PeakData).added = 1 ∧
                  inAOI ({ pk with added := pk.added - 1 } : PeakData) p =
                    true) from fun hc => absurd hc.1
                (by dsimp only at hc ⊢; omega))]
            by_cases hio : inAOI pk p = true
            · rw [if_pos hio, if_pos (show pk.added = 1 ∧
                inAOI pk p = true from ⟨h1, hio⟩)]
              ring
            · rw [if_neg hio, if_neg (show ¬(pk.added = 1 ∧
                inAOI pk p = true) from fun hc => hio hc.2)]
              ring

theorem applyOps_contextInv (m : PeakModel) (ops : List FitOp) :
    ∀ (fd : FitData), contextInv fd → contextInv (applyOps m ops fd) := by
  induction ops with
  | nil => intro fd h; exact h
  | cons op ops ih =>
    intro fd h
    exact ih (applyOp m op fd) (applyOp_contextInv m op fd h)

/-! ## Clamp / sign noninterference (USECLAMP = 0) -/

/-- Erase the per-parameter clamp and sign fields, which the header notes
are not used for LM fitting. -/
def eraseCS (pk : PeakData) : PeakData :=
  { pk with clamp := fun _ => 0, sign := fun _ => 0 }

/-- Erase every peak's clamp and sign fields in a fit state.  Two states
with the same `scrub` image differ at most in those fields. -/
def scrub (fd : FitData) : FitData :=
  { fd with
    working_peak := eraseCS fd.working_peak,
    fit := fd.fit.map eraseCS }

/-- The observable optimization state of a peak: parameters, error,
lambda, status and iteration count. -/
def peakObs (pk : PeakData) :
    (Fin NFITTING → ℚ) × ℚ × ℚ × Int × Int :=
  (pk.params, pk.error, pk.lambda, pk.status, pk.iterations)

theorem peakObs_eraseCS (pk : PeakData) : peakObs (eraseCS pk) = peakObs pk :=
  rfl

theorem scrub_status (fd : FitData) :
    (scrub fd).working_peak.status = fd.working_peak.status := rfl

theorem scrub_error (fd : FitData) :
    (scrub fd).working_peak.error = fd.working_peak.error := rfl

theorem scrub_sub_buffers (fd : FitData) :
    (mFitSubtractPeak (scrub fd)).buffers = (mFitSubtractPeak fd).buffers :=
  rfl

theorem scrub_aoi (fd : FitData) :
    aoiOf (scrub fd).working_peak = aoiOf fd.working_peak := rfl

theorem scrub_lambda (fd : FitData) :
    (scrub fd).working_peak.lambda = fd.working_peak.lambda := rfl

theorem scrub_params (fd : FitData) :
    (scrub fd).working_peak.params = fd.working_peak.params := rfl

theorem lmCandErr_scrub (m : PeakModel) (fd : FitData)
    (delta : Fin NFITTING → ℚ) :
    lmCandErr m (scrub fd) delta = lmCandErr m fd delta := rfl

theorem solveFail_scrub (fd : FitData) :
    solveFail (mFitSubtractPeak (scrub fd)) (scrub fd).working_peak =
      scrub (solveFail (mFitSubtractPeak fd) fd.working_peak) := rfl

theorem rejectStep_scrub (m : PeakModel) (fd : FitData)
    (delta : Fin NFITTING → ℚ) :
    rejectStep (lmCandidate m (scrub fd) delta) (scrub fd).working_peak =
      scrub (rejectStep (lmCandidate m fd delta) fd.working_peak) := rfl

theorem acceptStep_scrub (m : PeakModel) (fd : FitData)
    (delta : Fin NFITTING → ℚ) (e : ℚ) :
    acceptStep m (lmCandidate m (scrub fd) delta) (scrub fd).working_peak
        e =
      scrub (acceptStep m (lmCandidate m fd delta) fd.working_peak e) := by
  unfold acceptStep
  have hchk : lmChecked m (lmCandidate m (scrub fd) delta)
      (scrub fd).working_peak e =
      lmChecked m (lmCandidate m fd delta) fd.working_peak e := rfl
  rw [hchk]
  by_cases hc : lmChecked m (lmCandidate m fd delta) fd.working_peak e =
      true
  · rw [if_pos hc, if_pos hc]
    have htol : ((scrub fd).working_peak.error - e <
        (lmCandidate m (scrub fd) delta).tolerance) =
        (fd.working_peak.error - e <
          (lmCandidate m fd delta).tolerance) := rfl
    simp only [htol]
    by_cases ht : fd.working_peak.error - e <
        (lmCandidate m fd delta).tolerance
    · rw [if_pos ht, if_pos ht]
      rfl
    · rw [if_neg ht, if_neg ht]
      rfl
  · rw [if_neg hc, if_neg hc]
    rfl

theorem lmPeakStep_scrub (m : PeakModel) (fd : FitData) :
    lmPeakStep m (scrub fd) = scrub (lmPeakStep m fd) := by
  by_cases hrun : fd.working_peak.status = RUNNING
  · have hrun' : (scrub fd).working_peak.status = RUNNING := hrun
    rcases hs : m.solveJH (mFitSubtractPeak fd).buffers
        (aoiOf fd.working_peak) fd.working_peak.lambda
        fd.working_peak.params with _ | delta
    · have hs' : m.solveJH (mFitSubtractPeak (scrub fd)).buffers
          (aoiOf (scrub fd).working_peak) (scrub fd).working_peak.lambda
          (scrub fd).working_peak.params = none := by
        rw [scrub_sub_buffers, scrub_aoi, scrub_lambda, scrub_params]
        exact hs
      rw [lmPeakStep_eq_solveFail m (scrub fd) hrun' hs',
        lmPeakStep_eq_solveFail m fd hrun hs]
      exact solveFail_scrub fd
    · have hs' : m.solveJH (mFitSubtractPeak (scrub fd)).buffers
          (aoiOf (scrub fd).working_peak) (scrub fd).working_peak.lambda
          (scrub fd).working_peak.params = some delta := by
        rw [scrub_sub_buffers, scrub_aoi, scrub_lambda, scrub_params]
        exact hs
      by_cases he : lmCandErr m fd delta < fd.working_peak.error
      · have he' : lmCandErr m (scrub fd) delta <
            (scrub fd).working_peak.error := by
          rw [lmCandErr_scrub, scrub_error]
          exact he
        rw [lmPeakStep_eq_accept m (scrub fd) delta hrun' hs' he',
          lmPeakStep_eq_accept m fd delta hrun hs he,
          lmCandErr_scrub]
        exact acceptStep_scrub m fd delta (lmCandErr m fd delta)
      · have he' : ¬lmCandErr m (scrub fd) delta <
            (scrub fd).working_peak.error := by
          rw [lmCandErr_scrub, scrub_error]
          exact he
        rw [lmPeakStep_eq_reject m (scrub fd) delta hrun' hs' he',
          lmPeakStep_eq_reject m fd delta hrun hs he]
        exact rejectStep_scrub m fd delta
  · rw [lmPeakStep_not_running m (scrub fd)
      (fun hc => hrun ((scrub_status fd) ▸ hc)),
      lmPeakStep_not_running m fd hrun]

theorem scrub_set_working (fd : FitData) (pk : PeakData) :
    ({ scrub fd with working_peak := eraseCS pk } : FitData) =
      scrub { fd with working_peak := pk } := rfl

theorem iteratePeaks_scrub (m : PeakModel) :
    ∀ (pks : List PeakData) (fd : FitData),
      iteratePeaks m (scrub fd) (pks.map eraseCS) =
        (scrub (iteratePeaks m fd pks).1,
          (iteratePeaks m fd pks).2.map eraseCS) := by
  intro pks
  induction pks with
  | nil => intro fd; rfl
  | cons pk rest ih =>
    intro fd
    unfold iteratePeaks
    simp only [List.map_cons]
    by_cases ha : pk.added = 1
    · have ha' : (eraseCS pk).added = 1 := ha
      rw [if_pos ha, if_pos ha']
      dsimp only
      rw [scrub_set_working fd pk, lmPeakStep_scrub m
        { fd with working_peak := pk }, ih]
      rfl
    · have ha' : ¬(eraseCS pk).added = 1 := ha
      rw [if_neg ha, if_neg ha']
      dsimp only
      rw [ih fd]
      simp only [List.map_cons]

theorem mFitIterateLM_scrub (m : PeakModel) (fd : FitData) :
    mFitIterateLM m (scrub fd) = scrub (mFitIterateLM m fd) := by
  unfold mFitIterateLM
  dsimp only
  have hfit : (scrub fd).fit = fd.fit.map eraseCS := rfl
  rw [hfit, iteratePeaks_scrub m fd.fit fd]
  rfl

/-! ## Recentering facts -/

theorem recenterOne_hysteresis (xoff yoff : ℚ) (pk : PeakData) :
    ((|pk.params ⟨XCENTER, by decide⟩ + xoff - (pk.xi : ℚ)| ≤ HYSTERESIS →
      (recenterOne xoff yoff pk).xi = pk.xi) ∧
    ((recenterOne xoff yoff pk).xi ≠ pk.xi →
      HYSTERESIS < |pk.params ⟨XCENTER, by decide⟩ + xoff - (pk.xi : ℚ)|) ∧
    (|pk.params ⟨YCENTER, by decide⟩ + yoff - (pk.yi : ℚ)| ≤ HYSTERESIS →
      (recenterOne xoff yoff pk).yi = pk.yi) ∧
    ((recenterOne xoff yoff pk).yi ≠ pk.yi →
      HYSTERESIS < |pk.params ⟨YCENTER, by decide⟩ + yoff - (pk.yi : ℚ)|) ∧
    (recenterOne xoff yoff pk).size_x = pk.size_x ∧
    (recenterOne xoff yoff pk).size_y = pk.size_y ∧
    (recenterOne xoff yoff pk).params = pk.params) := by
  unfold recenterOne
  dsimp only
  refine ⟨?_, ?_, ?_, ?_, rfl, rfl, rfl⟩
  · intro h
    rw [if_neg (not_lt.mpr h)]
  · intro h
    by_contra hc
    exact h (by rw [if_neg hc])
  · intro h
    rw [if_neg (not_lt.mpr h)]
  · intro h
    by_contra hc
    exact h (by rw [if_neg hc])

/-! ## Result record facts -/

theorem resultRecord_spec (pk : PeakData) :
    (∀ i : Fin NFITTING,
      resultRecord pk ⟨(i : Nat), lt_of_lt_of_le i.isLt (by decide)⟩ =
        pk.params i) ∧
    resultRecord pk ⟨STATUS, by decide⟩ = (pk.status : ℚ) ∧
    resultRecord pk ⟨IERROR, by decide⟩ = pk.error := by
  refine ⟨?_, ?_, ?_⟩
  · intro i
    unfold resultRecord
    rw [dif_pos i.isLt]
  · unfold resultRecord
    rw [dif_neg (by decide), if_pos rfl]
  · unfold resultRecord
    rw [dif_neg (by decide), if_neg (by decide)]

/-! ## Remaining helpers -/

theorem psfAt_eq_of_aoi_psf {q pk : PeakData} (haoi : aoiOf q = aoiOf pk)
    (hpsf : q.psf = pk.psf) (p : Int × Int) : psfAt q p = psfAt pk p := by
  have h1 : q.xi = pk.xi := congrArg AOI.xi haoi
  have h2 : q.yi = pk.yi := congrArg AOI.yi haoi
  have h3 : q.size_x = pk.size_x := congrArg AOI.size_x haoi
  have h4 : q.size_y = pk.size_y := congrArg AOI.size_y haoi
  exact psfAt_geom _ _ h1 h2 h3 h4 hpsf p

theorem listModify_get? {α : Type} (f : α → α) :
    ∀ (i : Nat) (l : List α) (b : α), l.get? i = some b →
      (listModify f i l).get? i = some (f b) := by
  intro i l
  induction l generalizing i with
  | nil => intro b hb; cases hb
  | cons x xs ih =>
    intro b hb
    cases i with
    | zero =>
      obtain rfl : x = b := by simpa using hb
      rfl
    | succ n =>
      have hb' : xs.get? n = some b := by simpa using hb
      simpa [listModify] using ih n b hb'

/-! ## Concrete session fixtures used by the witnesses -/

/-- A concrete peak: a 2x2 AOI at (1, 1), unit PSF, unit parameters. -/
def pkT : PeakData :=
  { added := 1, index := 0, iterations := 0, status := RUNNING,
    xi := 1, yi := 1, size_x := 2, size_y := 2,
    error := 1, lambda := 1,
    sign := fun _ => 0, clamp := fun _ => 1,
    params := fun _ => 1, psf := fun _ => 1 }

/-- A concrete 4x4 fit session whose buffers contain exactly `pkT`. -/
def fdT : FitData :=
  { n_dposv := 0, n_iterations := 0, n_lost := 0, n_margin := 0,
    n_neg_fi := 0, n_neg_height := 0, n_neg_width := 0,
    n_non_converged := 0, n_non_decr := 0,
    jac_size := 0, max_nfit := 500, nfit := 1,
    image_size_x := 4, image_size_y := 4,
    minimum_height := 0, xoff := 0, yoff := 0, zoff := 0,
    tolerance := 1/1000,
    bg_counts := fun p => if inAOI pkT p then 1 else 0,
    bg_data := fun _ => 0, bg_estimate := fun _ => 0,
    f_data := fun p => psfAt pkT p,
    scmos_term := fun _ => 0, x_data := fun _ => 0,
    clamp_start := fun _ => 1,
    working_peak := pkT, fit := [pkT] }

/-- The session `fdT` with a raised minimum height, so validation fails. -/
def fdT5 : FitData := { fdT with minimum_height := 5 }

/-- The session `fdT` with different clamp and sign arrays. -/
def fdTC : FitData :=
  { fdT with
    working_peak := { pkT with clamp := fun _ => 99, sign := fun _ => 7 },
    fit := [{ pkT with clamp := fun _ => 55, sign := fun _ => 3 }] }

/-- A model whose solve always reports a non-positive-definite system. -/
def mFail : PeakModel :=
  { calcShape := fun _ _ => 1, solveJH := fun _ _ _ _ => none,
    applyDelta := fun ps d i => ps i + d i, calcErr := fun _ _ => 0,
    checkModel := fun _ => true }

/-- A model whose solve returns the zero delta and whose recomputed error
is zero. -/
def mZero : PeakModel :=
  { calcShape := fun _ _ => 1, solveJH := fun _ _ _ _ => some (fun _ => 0),
    applyDelta := fun ps d i => ps i + d i, calcErr := fun _ _ => 0,
    checkModel := fun _ => true }

/-- A model whose solve returns the zero delta and whose recomputed error
is worse than the starting error of `pkT`. -/
def mRej : PeakModel :=
  { calcShape := fun _ _ => 1, solveJH := fun _ _ _ _ => some (fun _ => 0),
    applyDelta := fun ps d i => ps i + d i, calcErr := fun _ _ => 5,
    checkModel := fun _ => true }

/-! ## The claims -/

/-- C1: For every peak and every sequence of fitting operations, lambda
remains within [LAMBDAMIN, LAMBDAMAX]; whenever an increase would push
lambda beyond LAMBDAMAX (on a failed solve or a rejected update), the
peak instead transitions to status ERROR and the lost-peak counter n_lost
is incremented by exactly 1; an ERROR peak is excluded from further
iteration, so the transition happens exactly once. -/
theorem lambda_bounds_and_peak_loss (m : PeakModel) :
    (∀ (ops : List FitOp) (fd : FitData), lambdaInv fd →
      lambdaInv (applyOps m ops fd)) ∧
    (∀ fd : FitData, fd.working_peak.status = RUNNING →
      m.solveJH (mFitSubtractPeak fd).buffers (aoiOf fd.working_peak)
        fd.working_peak.lambda fd.working_peak.params = none →
      LAMBDAMAX ≤ fd.working_peak.lambda * LAMBDAUP →
      (lmPeakStep m fd).working_peak.status = ERROR ∧
      (lmPeakStep m fd).n_lost = fd.n_lost + 1) ∧
    (∀ (fd : FitData) (delta : Fin NFITTING → ℚ),
      fd.working_peak.status = RUNNING →
      m.solveJH (mFitSubtractPeak fd).buffers (aoiOf fd.working_peak)
        fd.working_peak.lambda fd.working_peak.params = some delta →
      ¬lmCandErr m fd delta < fd.working_peak.error →
      LAMBDAMAX ≤ fd.working_peak.lambda * LAMBDAUP →
      (lmPeakStep m fd).working_peak.status = ERROR ∧
      (lmPeakStep m fd).n_lost = fd.n_lost + 1) ∧
    (∀ fd : FitData, fd.working_peak.status = ERROR →
      lmPeakStep m fd = fd) := by
  refine ⟨fun ops fd h => applyOps_lambdaInv m ops fd h, ?_, ?_, ?_⟩
  · intro fd hrun hs hsat
    have hlost : lambdaLost fd.working_peak.lambda = true :=
      (lambdaLost_iff _).mpr hsat
    rw [lmPeakStep_eq_solveFail m fd hrun hs]
    obtain ⟨-, h2, -, -, -, -, -, h8, -⟩ :=
      solveFail_wp (mFitSubtractPeak fd) fd.working_peak
    constructor
    · rw [h2, if_pos hlost]
    · rw [h8, if_pos hlost]
      rfl
  · intro fd delta hrun hs he hsat
    have hlost : lambdaLost fd.working_peak.lambda = true :=
      (lambdaLost_iff _).mpr hsat
    rw [lmPeakStep_eq_reject m fd delta hrun hs he]
    obtain ⟨-, h2, -, -, -, -, -, h8, -⟩ :=
      rejectStep_wp (lmCandidate m fd delta) fd.working_peak
    constructor
    · rw [h2, if_pos hlost]
    · rw [h8, if_pos hlost, (lmCandidate_wp m fd delta).2.2.2.2.2.2.1]
  · intro fd herr
    exact lmPeakStep_not_running m fd (by rw [herr]; decide)

theorem lambda_bounds_and_peak_loss_witness :
    lambdaInv (applyOps mZero [FitOp.iterate] fdT) :=
  (lambda_bounds_and_peak_loss mZero).1 [FitOp.iterate] fdT
    (by norm_num [lambdaInv, lambdaOK, fdT, pkT, LAMBDAMIN, LAMBDAMAX])

/-- C2: Add immediately followed by Subtract on the same unmodified
working peak restores the whole fit state exactly, in particular the
aggregate model image, the background buffer and the per-pixel overlap
counts; Subtract is the exact inverse of Add. -/
theorem add_subtract_inverse (fd : FitData) :
    mFitSubtractPeak (mFitAddPeak fd) = fd ∧
    (∀ p, (mFitSubtractPeak (mFitAddPeak fd)).f_data p = fd.f_data p ∧
      modelImage (mFitSubtractPeak (mFitAddPeak fd)) p = modelImage fd p ∧
      (mFitSubtractPeak (mFitAddPeak fd)).bg_data p = fd.bg_data p ∧
      (mFitSubtractPeak (mFitAddPeak fd)).bg_counts p = fd.bg_counts p) := by
  have h := sub_add_cancel_peak fd
  exact ⟨h, fun p => ⟨by rw [h], by rw [h], by rw [h], by rw [h]⟩⟩

/-- C3: For an active (RUNNING) peak with a successful solve, the LM
iteration accepts the candidate exactly when the recomputed error
decreased: on acceptance (with validation passing) the working copy is
committed with the new error and lambda is multiplied by LAMBDADOWN but
never reduced below LAMBDAMIN; on rejection the peak is reverted to its
snapshot, its original contribution is re-added to the shared buffers,
and lambda is multiplied by LAMBDAUP but never raised above LAMBDAMAX. -/
theorem lm_accept_reject (m : PeakModel) (fd : FitData)
    (delta : Fin NFITTING → ℚ)
    (hrun : fd.working_peak.status = RUNNING)
    (hs : m.solveJH (mFitSubtractPeak fd).buffers (aoiOf fd.working_peak)
      fd.working_peak.lambda fd.working_peak.params = some delta) :
    (lmCandErr m fd delta < fd.working_peak.error →
      lmChecked m (lmCandidate m fd delta) fd.working_peak
        (lmCandErr m fd delta) = true →
      (lmPeakStep m fd).working_peak.params =
        m.applyDelta fd.working_peak.params delta ∧
      (lmPeakStep m fd).working_peak.error = lmCandErr m fd delta ∧
      (lmPeakStep m fd).working_peak.lambda =
        max (fd.working_peak.lambda * LAMBDADOWN) LAMBDAMIN ∧
      LAMBDAMIN ≤ (lmPeakStep m fd).working_peak.lambda) ∧
    (¬lmCandErr m fd delta < fd.working_peak.error →
      (lmPeakStep m fd).working_peak.params = fd.working_peak.params ∧
      (lmPeakStep m fd).working_peak.error = fd.working_peak.error ∧
      (∀ p, (lmPeakStep m fd).f_data p = fd.f_data p) ∧
      (lmPeakStep m fd).working_peak.lambda =
        min (fd.working_peak.lambda * LAMBDAUP) LAMBDAMAX ∧
      (lmPeakStep m fd).working_peak.lambda ≤ LAMBDAMAX) := by
  constructor
  · intro he hchk
    rw [lmPeakStep_eq_accept m fd delta hrun hs he]
    obtain ⟨-, -, hl, hp, herr, -⟩ :=
      acceptStep_wp_valid m (lmCandidate m fd delta) fd.working_peak
        (lmCandErr m fd delta) hchk
    refine ⟨?_, herr, ?_, ?_⟩
    · rw [hp, (lmCandidate_wp m fd delta).2.2.1,
        if_pos (show USECLAMP = 0 from rfl)]
    · rw [hl]; rfl
    · rw [hl]; exact le_max_right _ _
  · intro he
    have heq := lmPeakStep_eq_reject m fd delta hrun hs he
    obtain ⟨hlam, -, hparams, herr2, hpsf2, -⟩ :=
      rejectStep_wp (lmCandidate m fd delta) fd.working_peak
    obtain ⟨-, s2, -, -, -, s6⟩ := lmPeakStep_shared m fd
    refine ⟨by rw [heq, hparams], by rw [heq, herr2], ?_,
      by rw [heq, hlam]; rfl,
      by rw [heq, hlam]; exact min_le_right _ _⟩
    intro p
    rw [s6 p]
    have hps : psfAt (lmPeakStep m fd).working_peak p =
        psfAt fd.working_peak p :=
      psfAt_eq_of_aoi_psf s2 (by rw [heq]; exact hpsf2) p
    rw [hps]
    ring

theorem lm_accept_reject_witness :
    (lmPeakStep mRej fdT).working_peak.lambda =
      min (fdT.working_peak.lambda * LAMBDAUP) LAMBDAMAX :=
  (((lm_accept_reject mRej fdT (fun _ => 0) rfl rfl).2
    (by norm_num [lmCandErr, mRej, fdT, pkT])).2.2.2).1

/-- C4: When the solve reports a non-positive-definite system, the
iteration controller increments n_dposv, multiplies lambda by LAMBDAUP,
restores the peak from its snapshot, re-adds its contribution to the
shared buffers, and (when lambda does not saturate) leaves the peak
RUNNING to be retried on the next call; the session (the peak collection)
is left intact, so no solve failure aborts it. -/
theorem solve_failure_recovery (m : PeakModel) (fd : FitData)
    (hrun : fd.working_peak.status = RUNNING)
    (hs : m.solveJH (mFitSubtractPeak fd).buffers (aoiOf fd.working_peak)
      fd.working_peak.lambda fd.working_peak.params = none)
    (hnos : fd.working_peak.lambda * LAMBDAUP < LAMBDAMAX) :
    (lmPeakStep m fd).n_dposv = fd.n_dposv + 1 ∧
    (lmPeakStep m fd).working_peak.lambda =
      fd.working_peak.lambda * LAMBDAUP ∧
    (lmPeakStep m fd).working_peak.params = fd.working_peak.params ∧
    (lmPeakStep m fd).working_peak.error = fd.working_peak.error ∧
    (lmPeakStep m fd).working_peak.status = RUNNING ∧
    (∀ p, (lmPeakStep m fd).f_data p = fd.f_data p) ∧
    (∀ p, (lmPeakStep m fd).bg_counts p = fd.bg_counts p) ∧
    (lmPeakStep m fd).fit = fd.fit ∧
    (lmPeakStep m fd).nfit = fd.nfit := by
  have hnl : lambdaLost fd.working_peak.lambda = false := by
    rw [← Bool.not_eq_true, lambdaLost_iff]
    exact not_le.mpr hnos
  have heq := lmPeakStep_eq_solveFail m fd hrun hs
  obtain ⟨h1, h2, h3, h4, h5, h6, h7, h8, h9, h10⟩ :=
    solveFail_wp (mFitSubtractPeak fd) fd.working_peak
  obtain ⟨-, s2, s3, -, s5, s6⟩ := lmPeakStep_shared m fd
  have hps : ∀ p, psfAt (lmPeakStep m fd).working_peak p =
      psfAt fd.working_peak p := fun p =>
    psfAt_eq_of_aoi_psf s2 (by rw [heq]; exact h5) p
  refine ⟨?_, ?_, ?_, ?_, ?_, ?_, fun p => s5 p, s3, ?_⟩
  · rw [heq, h7]
    rfl
  · rw [heq, h1]
    unfold lambdaUp
    exact min_eq_left (le_of_lt hnos)
  · rw [heq, h3]
  · rw [heq, h4]
  · rw [heq, h2, hnl]
    simpa using hrun
  · intro p
    rw [s6 p, hps p]
    ring
  · rw [heq, h10]
    rfl

theorem solve_failure_recovery_witness :
    (lmPeakStep mFail fdT).n_dposv = fdT.n_dposv + 1 ∧
    (lmPeakStep mFail fdT).working_peak.status = RUNNING :=
  ⟨(solve_failure_recovery mFail fdT rfl rfl
      (by norm_num [fdT, pkT, LAMBDAUP, LAMBDAMAX])).1,
    (solve_failure_recovery mFail fdT rfl rfl
      (by norm_num [fdT, pkT, LAMBDAUP, LAMBDAMAX])).2.2.2.2.1⟩

/-- C5: Validation (`mFitCheck`) accepts a peak exactly when its height
is at least the configured minimum, both widths are positive, its AOI
stays clear of the image border, and its modeled pixel value is
nonnegative on its whole footprint; and when an accepted candidate fails
validation, the peak is marked ERROR with its parameters restored and the
shared buffers left exactly as before the attempt. -/
theorem validation_rejects_invalid_peaks (m : PeakModel) :
    (∀ fd : FitData, mFitCheck fd = true ↔
      (fd.minimum_height ≤ fd.working_peak.params ⟨HEIGHT, by decide⟩ ∧
       0 < fd.working_peak.params ⟨XWIDTH, by decide⟩ ∧
       0 < fd.working_peak.params ⟨YWIDTH, by decide⟩ ∧
       (0 ≤ fd.working_peak.xi ∧
        fd.working_peak.xi + fd.working_peak.size_x ≤ fd.image_size_x ∧
        0 ≤ fd.working_peak.yi ∧
        fd.working_peak.yi + fd.working_peak.size_y ≤ fd.image_size_y) ∧
       (∀ j < fd.working_peak.size_y.toNat,
        ∀ i < fd.working_peak.size_x.toNat,
        0 ≤ modelImage fd (fd.working_peak.xi + (i : Int),
          fd.working_peak.yi + (j : Int))))) ∧
    (∀ (fd : FitData) (delta : Fin NFITTING → ℚ),
      fd.working_peak.status = RUNNING →
      m.solveJH (mFitSubtractPeak fd).buffers (aoiOf fd.working_peak)
        fd.working_peak.lambda fd.working_peak.params = some delta →
      lmCandErr m fd delta < fd.working_peak.error →
      lmChecked m (lmCandidate m fd delta) fd.working_peak
        (lmCandErr m fd delta) = false →
      (lmPeakStep m fd).working_peak.status = ERROR ∧
      (lmPeakStep m fd).working_peak.params = fd.working_peak.params ∧
      (∀ p, (lmPeakStep m fd).f_data p = fd.f_data p ∧
        (lmPeakStep m fd).bg_counts p = fd.bg_counts p ∧
        (lmPeakStep m fd).bg_data p = fd.bg_data p)) := by
  constructor
  · intro fd
    simp only [mFitCheck, marginOK, fiNonNeg, Bool.and_eq_true,
      decide_eq_true_eq, List.all_eq_true, List.mem_range, and_assoc]
    all_goals tauto
  · intro fd delta hrun hs he hchk
    have heq := lmPeakStep_eq_accept m fd delta hrun hs he
    obtain ⟨hst, -, hp, -, hpsf, -⟩ :=
      acceptStep_wp_invalid m (lmCandidate m fd delta) fd.working_peak
        (lmCandErr m fd delta) hchk
    obtain ⟨-, s2, -, s4, s5, s6⟩ := lmPeakStep_shared m fd
    refine ⟨by rw [heq]; exact hst, by rw [heq]; exact hp, ?_⟩
    intro p
    refine ⟨?_, s5 p, s4 p⟩
    rw [s6 p]
    have hq : psfAt (lmPeakStep m fd).working_peak p =
        psfAt fd.working_peak p :=
      psfAt_eq_of_aoi_psf s2 (by rw [heq]; exact hpsf) p
    rw [hq]
    ring

theorem validation_rejects_invalid_peaks_witness :
    (lmPeakStep mZero fdT5).working_peak.status = ERROR :=
  ((validation_rejects_invalid_peaks mZero).2 fdT5 (fun _ => 0) rfl rfl
    (by norm_num [lmCandErr, mZero, fdT5, fdT, pkT])
    (by
      have hh : mFitCheck
          { lmCandidate mZero fdT5 (fun _ => 0) with
            working_peak := lmCommitted (lmCandidate mZero fdT5
              (fun _ => 0)) fdT5.working_peak
              (lmCandErr mZero fdT5 (fun _ => 0)),
            n_iterations :=
              (lmCandidate mZero fdT5 (fun _ => 0)).n_iterations + 1 } =
          false := by
        unfold mFitCheck
        simp only [Bool.and_eq_false_iff]
        left; left; left; left
        rw [decide_eq_false_iff_not]
        norm_num [lmCandidate, lmCommitted, fdT5, fdT, pkT, mZero,
          USECLAMP, mFitAddPeak, mFitSubtractPeak]
      rw [lmChecked, hh]
      rfl)).1

/-- C6: Every recentering pass maps each stored peak through the
hysteresis rule: the discrete AOI origin changes only when the candidate
origin computed from the updated continuous center parameter differs from
the current origin by more than HYSTERESIS; a smaller delta leaves the
AOI origin and size unchanged while the continuous center parameter is
kept as updated. -/
theorem recenter_aoi_hysteresis (fd : FitData) :
    (mFitRecenterPeaks fd).fit =
      fd.fit.map (recenterOne fd.xoff fd.yoff) ∧
    ∀ (xoff yoff : ℚ) (pk : PeakData),
      (|pk.params ⟨XCENTER, by decide⟩ + xoff - (pk.xi : ℚ)| ≤
        HYSTERESIS → (recenterOne xoff yoff pk).xi = pk.xi) ∧
      ((recenterOne xoff yoff pk).xi ≠ pk.xi →
        HYSTERESIS < |pk.params ⟨XCENTER, by decide⟩ + xoff -
          (pk.xi : ℚ)|) ∧
      (|pk.params ⟨YCENTER, by decide⟩ + yoff - (pk.yi : ℚ)| ≤
        HYSTERESIS → (recenterOne xoff yoff pk).yi = pk.yi) ∧
      ((recenterOne xoff yoff pk).yi ≠ pk.yi →
        HYSTERESIS < |pk.params ⟨YCENTER, by decide⟩ + yoff -
          (pk.yi : ℚ)|) ∧
      (recenterOne xoff yoff pk).size_x = pk.size_x ∧
      (recenterOne xoff yoff pk).size_y = pk.size_y ∧
      (recenterOne xoff yoff pk).params = pk.params :=
  ⟨rfl, fun xoff yoff pk => recenterOne_hysteresis xoff yoff pk⟩

theorem recenter_aoi_hysteresis_witness :
    (recenterOne 0 0 pkT).xi = pkT.xi :=
  ((recenter_aoi_hysteresis fdT).2 0 0 pkT).1
    (by norm_num [pkT, HYSTERESIS])

/-- C7: The per-peak status machine never leaves the terminal states:
an LM iteration is the identity on a CONVERGED or ERROR peak; a RUNNING
peak steps to RUNNING, CONVERGED or ERROR; and the explicit Reset
operation returns the indexed stored peak to RUNNING with its lambda
restored to the session default. -/
theorem status_transitions (m : PeakModel) :
    (∀ fd : FitData, fd.working_peak.status = CONVERGED ∨
      fd.working_peak.status = ERROR → lmPeakStep m fd = fd) ∧
    (∀ fd : FitData, fd.working_peak.status = RUNNING →
      (lmPeakStep m fd).working_peak.status = RUNNING ∨
      (lmPeakStep m fd).working_peak.status = CONVERGED ∨
      (lmPeakStep m fd).working_peak.status = ERROR) ∧
    (∀ (fd : FitData) (i : Nat) (b : PeakData), fd.fit.get? i = some b →
      (mFitResetPeak fd i).fit.get? i =
        some (resetPeakData fd.clamp_start b) ∧
      (resetPeakData fd.clamp_start b).status = RUNNING ∧
      (resetPeakData fd.clamp_start b).lambda = LAMBDASTART) := by
  refine ⟨?_, ?_, ?_⟩
  · intro fd h
    refine lmPeakStep_not_running m fd ?_
    rcases h with h | h <;> rw [h] <;> decide
  · intro fd hrun
    rcases lmPeakStep_status_cases m fd with h | h
    · left
      rw [h, hrun]
    · right
      exact h
  · intro fd i b hb
    refine ⟨?_, rfl, rfl⟩
    unfold mFitResetPeak
    exact listModify_get? _ i fd.fit b hb

theorem status_transitions_witness :
    (lmPeakStep mZero fdT).working_peak.status = RUNNING ∨
    (lmPeakStep mZero fdT).working_peak.status = CONVERGED ∨
    (lmPeakStep mZero fdT).working_peak.status = ERROR :=
  (status_transitions mZero).2.1 fdT rfl

/-- C8: After every sequence of Fit Context operations, the sum of the
currently-added peaks' rendered contributions equals the aggregate model
image minus the background, and the overlap count at each pixel equals
the number of currently-added peaks whose AOI covers that pixel. -/
theorem buffer_accounting (m : PeakModel) (ops : List FitOp)
    (fd : FitData) (h : contextInv fd) :
    contextInv (applyOps m ops fd) ∧
    (∀ p, contribSum (applyOps m ops fd).fit p =
      modelImage (applyOps m ops fd) p - (applyOps m ops fd).bg_data p ∧
      (applyOps m ops fd).bg_counts p =
        (((applyOps m ops fd).fit.filter fun pk =>
          decide (pk.added = 1) && inAOI pk p).length : Int)) := by
  have h' := applyOps_contextInv m ops fd h
  refine ⟨h', fun p => ⟨(h'.2 p).1, ?_⟩⟩
  rw [(h'.2 p).2, coverCount_eq_length]

theorem buffer_accounting_witness :
    contextInv (applyOps mZero [FitOp.iterate, FitOp.subIdx 0,
      FitOp.addIdx 0] fdT) :=
  (buffer_accounting mZero [FitOp.iterate, FitOp.subIdx 0, FitOp.addIdx 0]
    fdT
    (by
      constructor
      · intro pk hpk
        rw [show fdT.fit = [pkT] from rfl, List.mem_singleton] at hpk
        subst hpk
        right
        rfl
      · intro p
        constructor
        · show contribSum [pkT] p = modelImage fdT p - fdT.bg_data p
          rw [contribSum_cons, contribSum_nil,
            if_pos (show pkT.added = 1 from rfl)]
          show psfAt pkT p + 0 = psfAt pkT p + 0 - 0
          ring
        · show fdT.bg_counts p = coverCount [pkT] p
          rw [coverCount_cons, coverCount_nil]
          show (if inAOI pkT p then (1 : Int) else 0) =
            (if pkT.added = 1 ∧ inAOI pkT p then (1 : Int) else 0) + 0
          by_cases hio : inAOI pkT p = true
          · rw [if_pos hio, if_pos ⟨rfl, hio⟩]
            omega
          · rw [if_neg hio, if_neg (fun hc => hio hc.2)]
            rfl)).1

/-- C9: The per-peak parameter vector has the fixed length 7 with the
fixed index order height, x-center, x-width, y-center, y-width,
background, z-center; the full result record appends the two derived
fields STATUS and IERROR, giving a 9-wide record whose first 7 entries
are the parameters, entry STATUS is the status and entry IERROR is the
fit error. -/
theorem result_record_layout :
    NFITTING = 7 ∧ NPEAKPAR = NFITTING + 2 ∧ HEIGHT = 0 ∧ XCENTER = 1 ∧
    XWIDTH = 2 ∧ YCENTER = 3 ∧ YWIDTH = 4 ∧ BACKGROUND = 5 ∧
    ZCENTER = 6 ∧ STATUS = 7 ∧ IERROR = 8 ∧
    ∀ pk : PeakData,
      (∀ i : Fin NFITTING, resultRecord pk
        ⟨(i : Nat), lt_of_lt_of_le i.isLt (by decide)⟩ = pk.params i) ∧
      resultRecord pk ⟨STATUS, by decide⟩ = (pk.status : ℚ) ∧
      resultRecord pk ⟨IERROR, by decide⟩ = pk.error :=
  ⟨rfl, rfl, rfl, rfl, rfl, rfl, rfl, rfl, rfl, rfl, rfl,
    fun pk => resultRecord_spec pk⟩

/-- C10: With USECLAMP equal to 0, the outcome of an LM pass does not
depend on the per-parameter clamp and sign fields: two fit states that
agree after erasing every peak's clamp and sign arrays produce LM results
that also agree after that erasure; in particular every peak's
parameters, error, lambda, status and iteration count, the shared model
image, and the lost-peak counter coincide. -/
theorem clamp_sign_noninterference (m : PeakModel) (fd1 fd2 : FitData)
    (h : scrub fd1 = scrub fd2) :
    scrub (mFitIterateLM m fd1) = scrub (mFitIterateLM m fd2) ∧
    (mFitIterateLM m fd1).fit.map peakObs =
      (mFitIterateLM m fd2).fit.map peakObs ∧
    peakObs (mFitIterateLM m fd1).working_peak =
      peakObs (mFitIterateLM m fd2).working_peak ∧
    (∀ p, (mFitIterateLM m fd1).f_data p =
      (mFitIterateLM m fd2).f_data p) ∧
    (mFitIterateLM m fd1).n_lost = (mFitIterateLM m fd2).n_lost := by
  have hs : scrub (mFitIterateLM m fd1) = scrub (mFitIterateLM m fd2) := by
    rw [← mFitIterateLM_scrub, ← mFitIterateLM_scrub, h]
  refine ⟨hs, ?_, ?_, ?_, ?_⟩
  · have hfit0 := congrArg FitData.fit hs
    have hfit : (mFitIterateLM m fd1).fit.map eraseCS =
        (mFitIterateLM m fd2).fit.map eraseCS := hfit0
    have h1 := congrArg (List.map peakObs) hfit
    rw [List.map_map, List.map_map] at h1
    have hcomp : peakObs ∘ eraseCS = peakObs := funext fun pk => rfl
    rwa [hcomp] at h1
  · have h0 := congrArg FitData.working_peak hs
    have h1 : eraseCS (mFitIterateLM m fd1).working_peak =
        eraseCS (mFitIterateLM m fd2).working_peak := h0
    calc peakObs (mFitIterateLM m fd1).working_peak
        = peakObs (eraseCS (mFitIterateLM m fd1).working_peak) := rfl
      _ = peakObs (eraseCS (mFitIterateLM m fd2).working_peak) :=
          congrArg peakObs h1
      _ = peakObs (mFitIterateLM m fd2).working_peak := rfl
  · intro p
    have h0 := congrArg FitData.f_data hs
    have h1 : (mFitIterateLM m fd1).f_data =
        (mFitIterateLM m fd2).f_data := h0
    exact congrFun h1 p
  · have h0 := congrArg FitData.n_lost hs
    have h1 : (mFitIterateLM m fd1).n_lost =
        (mFitIterateLM m fd2).n_lost := h0
    exact h1

theorem clamp_sign_noninterference_witness :
    peakObs (mFitIterateLM mZero fdT).working_peak =
      peakObs (mFitIterateLM mZero fdTC).working_peak :=
  (clamp_sign_noninterference mZero fdT fdTC rfl).2.2.1

end MultiFit
